import Mathlib

/-!
A verification development for the display-state engine of the yStrokey
on-screen keystroke visualizer.  The definitions below shallowly embed the
Rust code of `crates/core/src/state.rs`, `crates/core/src/key.rs`,
`crates/core/src/event.rs` and the engine-relevant parts of
`crates/core/src/config.rs`:

* `Instant` and `Duration` are modelled as natural numbers of milliseconds,
  with `Instant::duration_since` as truncated (saturating) subtraction;
* `f32` opacities are modelled as rational numbers: for positive fade
  durations the opacity computations of the code (division by a positive
  constant, clamping to `[0,1]`, subtraction from 1 and squaring of values
  in `[0,1]`) are exact and order-preserving in both number models;
* the `HashMap<PressKey, PressTarget>` of active presses is modelled as a
  key-unique association list (the code never depends on iteration order);
* the bounded loops of the code (`while items.len() > max_items` and the
  romaji scanning loop, which consumes at least one character per step) are
  modelled with an explicit fuel argument that is always instantiated with a
  sufficient bound, keeping every definition kernel-computable.
-/

/-- Embeds `KeyCode` from `key.rs`: a wrapper around a Win32 virtual-key
style `u32` code (numpad Enter is distinguished as `0x200 | 0x0D`). -/
structure KeyCode where
  code : Nat
deriving DecidableEq

/-- Embeds `KeyCode::label` from `key.rs`: the full display label. -/
def KeyCode.label (k : KeyCode) : String :=
  match k.code with
  | 0x30 => "0" | 0x31 => "1" | 0x32 => "2" | 0x33 => "3" | 0x34 => "4"
  | 0x35 => "5" | 0x36 => "6" | 0x37 => "7" | 0x38 => "8" | 0x39 => "9"
  | 0x41 => "A" | 0x42 => "B" | 0x43 => "C" | 0x44 => "D" | 0x45 => "E"
  | 0x46 => "F" | 0x47 => "G" | 0x48 => "H" | 0x49 => "I" | 0x4A => "J"
  | 0x4B => "K" | 0x4C => "L" | 0x4D => "M" | 0x4E => "N" | 0x4F => "O"
  | 0x50 => "P" | 0x51 => "Q" | 0x52 => "R" | 0x53 => "S" | 0x54 => "T"
  | 0x55 => "U" | 0x56 => "V" | 0x57 => "W" | 0x58 => "X" | 0x59 => "Y"
  | 0x5A => "Z"
  | 0x60 => "Num0" | 0x61 => "Num1" | 0x62 => "Num2" | 0x63 => "Num3"
  | 0x64 => "Num4" | 0x65 => "Num5" | 0x66 => "Num6" | 0x67 => "Num7"
  | 0x68 => "Num8" | 0x69 => "Num9"
  | 0x6A => "Num*" | 0x6B => "Num+" | 0x6C => "NumSep" | 0x6D => "Num-"
  | 0x6E => "Num." | 0x6F => "Num/" | 0x20D => "NumEnter"
  | 0xA2 => "Ctrl" | 0xA3 => "Ctrl"
  | 0xA0 => "Shift" | 0xA1 => "Shift"
  | 0xA4 => "Alt" | 0xA5 => "Alt"
  | 0x5B => "Win" | 0x5C => "Win"
  | 0x08 => "BS" | 0x09 => "Tab" | 0x0D => "Enter" | 0x13 => "Pause"
  | 0x14 => "CapsLock" | 0x1B => "Esc" | 0x20 => "Space"
  | 0x21 => "PgUp" | 0x22 => "PgDn" | 0x23 => "End" | 0x24 => "Home"
  | 0x25 => "Left" | 0x26 => "Up" | 0x27 => "Right" | 0x28 => "Down"
  | 0x2C => "PrtSc" | 0x2D => "Ins" | 0x2E => "Del"
  | 0x90 => "NumLock" | 0x91 => "ScrLk"
  | 0x70 => "F1" | 0x71 => "F2" | 0x72 => "F3" | 0x73 => "F4"
  | 0x74 => "F5" | 0x75 => "F6" | 0x76 => "F7" | 0x77 => "F8"
  | 0x78 => "F9" | 0x79 => "F10" | 0x7A => "F11" | 0x7B => "F12"
  | _ => "?"

/-- Embeds `KeyCode::label_plain` from `key.rs`: numpad-collapsed label. -/
def KeyCode.label_plain (k : KeyCode) : String :=
  match k.code with
  | 0x60 => "0" | 0x61 => "1" | 0x62 => "2" | 0x63 => "3" | 0x64 => "4"
  | 0x65 => "5" | 0x66 => "6" | 0x67 => "7" | 0x68 => "8" | 0x69 => "9"
  | 0x6A => "*" | 0x6B => "+" | 0x6C => "Sep" | 0x6D => "-"
  | 0x6E => "." | 0x6F => "/" | 0x20D => "Enter"
  | _ => k.label

/-- Embeds `KeyCode::is_modifier` from `key.rs`. -/
def KeyCode.is_modifier (k : KeyCode) : Bool :=
  k.code = 0xA2 ∨ k.code = 0xA3 ∨ k.code = 0xA0 ∨ k.code = 0xA1 ∨
  k.code = 0xA4 ∨ k.code = 0xA5 ∨ k.code = 0x5B ∨ k.code = 0x5C

/-- Embeds `Modifiers` from `event.rs`. -/
structure Modifiers where
  ctrl : Bool
  shift : Bool
  alt : Bool
  win : Bool
deriving DecidableEq

/-- Embeds `Modifiers::default()`. -/
def defaultModifiers : Modifiers := ⟨false, false, false, false⟩

/-- Embeds `Modifiers::any` from `event.rs`. -/
def Modifiers.any (m : Modifiers) : Bool := m.ctrl || m.shift || m.alt || m.win

/-- Embeds `KeyAction` from `event.rs`. -/
inductive KeyAction where
  | Down
  | Up
deriving DecidableEq

/-- Embeds `KeyEvent` from `event.rs` (timestamps are milliseconds). -/
structure KeyEvent where
  key : KeyCode
  action : KeyAction
  modifiers : Modifiers
  is_numpad : Bool
  scan_code : Nat
  timestamp : Nat
deriving DecidableEq

/-- Embeds `MouseButton` from `event.rs`. -/
inductive MouseButton where
  | Left
  | Right
  | Middle
  | X1
  | X2
deriving DecidableEq

/-- Embeds `MouseAction` from `event.rs` (wheel delta is an `i16`). -/
inductive MouseAction where
  | Down
  | Up
  | Wheel (delta : Int)
deriving DecidableEq

/-- Embeds `MouseEvent` from `event.rs`. -/
structure MouseEvent where
  button : MouseButton
  action : MouseAction
  position : Int × Int
  timestamp : Nat
deriving DecidableEq

/-- Embeds `ImeEventKind` from `event.rs`. -/
inductive ImeEventKind where
  | StateChanged (enabled : Bool)
  | CompositionUpdate (text : String)
  | CompositionEnd (result : String)
deriving DecidableEq

/-- Embeds `ImeEvent` from `event.rs`. -/
structure ImeEvent where
  kind : ImeEventKind
  timestamp : Nat
deriving DecidableEq

/-- Embeds `ClipboardContent` from `event.rs`. -/
inductive ClipboardContent where
  | Text (s : String)
  | Image (width height : Nat)
  | Other
deriving DecidableEq

/-- Embeds `ClipboardEvent` from `event.rs`. -/
structure ClipboardEvent where
  content : ClipboardContent
  timestamp : Nat
deriving DecidableEq

/-- Embeds `LockStateEvent` from `event.rs`. -/
structure LockStateEvent where
  caps_lock : Bool
  num_lock : Bool
  scroll_lock : Bool
  timestamp : Nat
deriving DecidableEq

/-- Embeds `InputEvent` from `event.rs`. -/
inductive InputEvent where
  | Key (ke : KeyEvent)
  | Mouse (me : MouseEvent)
  | Ime (ie : ImeEvent)
  | Clipboard (ce : ClipboardEvent)
  | LockState (ls : LockStateEvent)
  | DpiChanged (dpi : Nat) (suggested_rect : Int × Int × Int × Int)
  | ConfigChanged
deriving DecidableEq

/-- Embeds `KeyTransitionMode` from `config.rs`. -/
inductive KeyTransitionMode where
  | SingleCell
  | SplitCells
deriving DecidableEq

/-- Embeds `FadeOutCurve` from `config.rs`. -/
inductive FadeOutCurve where
  | Linear
  | EaseOut
deriving DecidableEq

/-- Embeds `ShortcutDef` from `config.rs`. -/
structure ShortcutDef where
  keys : String
  label : String
deriving DecidableEq

/-- Embeds the engine-relevant fields of `DisplayConfig` from `config.rs`
(the layout fields `position`, `offset_x`, `offset_y`, `monitor_positions`
are consumed by the renderer only and never read by `DisplayState`). -/
structure DisplayConfig where
  max_items : Nat
  display_duration_ms : Nat
  fade_duration_ms : Nat
deriving DecidableEq

/-- Embeds the fields of `BehaviorConfig` from `config.rs` that
`DisplayState` reads (`exclude_from_capture` is a window flag). -/
structure BehaviorConfig where
  key_transition_mode : KeyTransitionMode
  show_repeat_count : Bool
  distinguish_numpad : Bool
  show_ime_composition : Bool
  show_clipboard : Bool
  clipboard_max_chars : Nat
  show_lock_indicators : Bool
  repeat_timeout_ms : Nat
  group_timeout_ms : Nat
  max_group_size : Nat
  ignored_keys : List String
deriving DecidableEq

/-- Embeds the fade-curve field of `AnimationConfig` from `config.rs` (the
ghost-cursor fields are consumed by the renderer only). -/
structure AnimationConfig where
  fade_out_curve : FadeOutCurve
deriving DecidableEq

/-- Embeds the engine-relevant slice of `AppConfig` from `config.rs`
(style, privacy, hotkey, performance, diagnostics, startup and tray
configuration never reach `DisplayState`). -/
structure AppConfig where
  display : DisplayConfig
  behavior : BehaviorConfig
  shortcuts : List ShortcutDef
  animation : AnimationConfig
deriving DecidableEq

/-- Embeds `str::eq_ignore_ascii_case` as used on key labels in
`process_key_event` (Lean's `Char.toLower` lowercases exactly the ASCII
uppercase letters, matching Rust's ASCII-only case folding). -/
def eqIgnoreAsciiCase (a b : String) : Bool := a.toLower == b.toLower

/-- Embeds `is_romaji_vowel` from `state.rs`. -/
def is_romaji_vowel (c : Char) : Bool :=
  c = 'a' ∨ c = 'i' ∨ c = 'u' ∨ c = 'e' ∨ c = 'o'

/-- Embeds `is_romaji_consonant` from `state.rs`. -/
def is_romaji_consonant (c : Char) : Bool :=
  c.isAlpha && !(is_romaji_vowel c)

/-- Embeds `romaji_map_3` from `state.rs`. -/
def romaji_map_3 (s : String) : Option String :=
  match s with
  | "kya" => some "きゃ" | "kyu" => some "きゅ" | "kyo" => some "きょ"
  | "gya" => some "ぎゃ" | "gyu" => some "ぎゅ" | "gyo" => some "ぎょ"
  | "sha" | "sya" => some "しゃ" | "shu" | "syu" => some "しゅ"
  | "sho" | "syo" => some "しょ"
  | "cha" | "tya" | "cya" => some "ちゃ" | "chu" | "tyu" | "cyu" => some "ちゅ"
  | "cho" | "tyo" | "cyo" => some "ちょ"
  | "nya" => some "にゃ" | "nyu" => some "にゅ" | "nyo" => some "にょ"
  | "hya" => some "ひゃ" | "hyu" => some "ひゅ" | "hyo" => some "ひょ"
  | "mya" => some "みゃ" | "myu" => some "みゅ" | "myo" => some "みょ"
  | "rya" => some "りゃ" | "ryu" => some "りゅ" | "ryo" => some "りょ"
  | "bya" => some "びゃ" | "byu" => some "びゅ" | "byo" => some "びょ"
  | "pya" => some "ぴゃ" | "pyu" => some "ぴゅ" | "pyo" => some "ぴょ"
  | "ja" | "jya" | "zya" => some "じゃ" | "ju" | "jyu" | "zyu" => some "じゅ"
  | "jo" | "jyo" | "zyo" => some "じょ"
  | "shi" => some "し" | "chi" => some "ち" | "tsu" => some "つ"
  | "dya" => some "ぢゃ" | "dyu" => some "ぢゅ" | "dyo" => some "ぢょ"
  | _ => none

/-- Embeds `romaji_map_2` from `state.rs`. -/
def romaji_map_2 (s : String) : Option String :=
  match s with
  | "ka" => some "か" | "ki" => some "き" | "ku" => some "く"
  | "ke" => some "け" | "ko" => some "こ"
  | "ga" => some "が" | "gi" => some "ぎ" | "gu" => some "ぐ"
  | "ge" => some "げ" | "go" => some "ご"
  | "sa" => some "さ" | "su" => some "す" | "se" => some "せ"
  | "so" => some "そ"
  | "za" => some "ざ" | "ji" => some "じ" | "zu" => some "ず"
  | "ze" => some "ぜ" | "zo" => some "ぞ"
  | "ta" => some "た" | "te" => some "て" | "to" => some "と"
  | "da" => some "だ" | "di" => some "ぢ" | "du" => some "づ"
  | "de" => some "で" | "do" => some "ど"
  | "na" => some "な" | "ni" => some "に" | "nu" => some "ぬ"
  | "ne" => some "ね" | "no" => some "の"
  | "ha" => some "は" | "hi" => some "ひ" | "fu" => some "ふ"
  | "he" => some "へ" | "ho" => some "ほ"
  | "ba" => some "ば" | "bi" => some "び" | "bu" => some "ぶ"
  | "be" => some "べ" | "bo" => some "ぼ"
  | "pa" => some "ぱ" | "pi" => some "ぴ" | "pu" => some "ぷ"
  | "pe" => some "ぺ" | "po" => some "ぽ"
  | "ma" => some "ま" | "mi" => some "み" | "mu" => some "む"
  | "me" => some "め" | "mo" => some "も"
  | "ya" => some "や" | "yu" => some "ゆ" | "yo" => some "よ"
  | "ra" => some "ら" | "ri" => some "り" | "ru" => some "る"
  | "re" => some "れ" | "ro" => some "ろ"
  | "wa" => some "わ" | "wo" => some "を"
  | "fa" => some "ふぁ" | "fi" => some "ふぃ" | "fe" => some "ふぇ"
  | "fo" => some "ふぉ"
  | "va" => some "ゔぁ" | "vi" => some "ゔぃ" | "vu" => some "ゔ"
  | "ve" => some "ゔぇ" | "vo" => some "ゔぉ"
  | _ => none

/-- Embeds `romaji_map_1` from `state.rs`. -/
def romaji_map_1 (s : String) : Option String :=
  match s with
  | "a" => some "あ" | "i" => some "い" | "u" => some "う"
  | "e" => some "え" | "o" => some "お"
  | _ => none

/-- Embeds the scanning loop of `romaji_to_hiragana` from `state.rs`.  The
loop advances its index by at least one character per iteration, so a fuel
equal to the buffer length (supplied by `romaji_to_hiragana`) always
suffices; the `fuel = 0` case is unreachable from that call. -/
def romajiGo : Nat → List Char → String
  | 0, _ => ""
  | _ + 1, [] => ""
  | _ + 1, [c] =>
    match romaji_map_1 (String.mk [c]) with
    | some kana => kana
    | none => ""
  | fuel + 1, c :: d :: rest =>
    if c = d ∧ is_romaji_consonant c = true ∧ c ≠ 'n' then
      "っ" ++ romajiGo fuel (d :: rest)
    else if c = 'n' ∧ (d = 'n' ∨ (is_romaji_vowel d = false ∧ d ≠ 'y')) then
      "ん" ++ romajiGo fuel (d :: rest)
    else
      match rest with
      | e :: rest2 =>
        match romaji_map_3 (String.mk [c, d, e]) with
        | some kana => kana ++ romajiGo fuel rest2
        | none =>
          match romaji_map_2 (String.mk [c, d]) with
          | some kana => kana ++ romajiGo fuel rest
          | none =>
            match romaji_map_1 (String.mk [c]) with
            | some kana => kana ++ romajiGo fuel (d :: rest)
            | none => String.mk [c] ++ romajiGo fuel (d :: rest)
      | [] =>
        match romaji_map_2 (String.mk [c, d]) with
        | some kana => kana
        | none =>
          match romaji_map_1 (String.mk [c]) with
          | some kana => kana ++ romajiGo fuel (d :: rest)
          | none => String.mk [c] ++ romajiGo fuel (d :: rest)

/-- Embeds `romaji_to_hiragana` from `state.rs`: filter to ASCII letters,
lowercase, then run the scanning loop. -/
def romaji_to_hiragana (romaji : String) : String :=
  let l := (romaji.data.filter fun ch => ch.isAlpha).map Char.toLower
  romajiGo l.length l

example : romaji_to_hiragana "n" = "" := by decide
example : romaji_to_hiragana "nn" = "ん" := by decide
example : romaji_to_hiragana "nya" = "にゃ" := by decide
example : romaji_to_hiragana "kka" = "っか" := by decide
example : romaji_to_hiragana "nihogngo" = "にほgんご" := by decide

/-- Embeds `KeyStrokeEntry` from `state.rs`. -/
structure KeyStrokeEntry where
  label : String
  modifiers : Modifiers
  action : KeyAction
  repeat_count : Nat
deriving DecidableEq

/-- Embeds `DisplayItemKind` from `state.rs`. -/
inductive DisplayItemKind where
  | KeyStroke (label : String) (modifiers : Modifiers) (action : KeyAction)
      (repeat_count : Nat)
  | KeyStrokeGroup (strokes : List KeyStrokeEntry)
  | Shortcut (keys_label action_label : String)
  | ImeComposition (text : String)
  | ClipboardPreview (text : String)
  | LockIndicator (caps num scroll : Bool)
deriving DecidableEq

/-- Embeds `DisplayPhase` from `state.rs`. -/
inductive DisplayPhase where
  | Active
  | FadingOut
  | Expired
deriving DecidableEq

/-- Embeds `DisplayItem` from `state.rs` (`created_at` in milliseconds,
`opacity` as a rational standing for the `f32`). -/
structure DisplayItem where
  id : Nat
  kind : DisplayItemKind
  created_at : Nat
  opacity : ℚ
  phase : DisplayPhase
deriving DecidableEq

/-- Embeds `RepeatTracker` from `state.rs`. -/
structure RepeatTracker where
  last_key : Option KeyCode
  last_modifiers : Modifiers
  count : Nat
  last_time : Nat
  timeout : Nat
deriving DecidableEq

/-- Embeds `RepeatTracker::track` from `state.rs` (returns the new count
and the updated tracker in place of `&mut self`). -/
def RepeatTracker.track (t : RepeatTracker) (key : KeyCode) (mods : Modifiers)
    (now : Nat) : Nat × RepeatTracker :=
  let newCount :=
    if some key = t.last_key ∧ mods = t.last_modifiers ∧
        now - t.last_time < t.timeout then
      t.count + 1
    else 1
  (newCount,
   { last_key := some key, last_modifiers := mods, count := newCount,
     last_time := now, timeout := t.timeout })

/-- Embeds `PressKey` from `state.rs`. -/
structure PressKey where
  scan_code : Nat
  is_numpad : Bool
deriving DecidableEq

/-- Embeds `PressKey::from_key_event` from `state.rs`. -/
def PressKey.from_key_event (ke : KeyEvent) : PressKey :=
  ⟨ke.scan_code, ke.is_numpad⟩

/-- Embeds `PressTarget` from `state.rs`. -/
structure PressTarget where
  item_id : Nat
  group_index : Option Nat
deriving DecidableEq

/-- Embeds `PressTarget::item` from `state.rs`. -/
def PressTarget.item (item_id : Nat) : PressTarget := ⟨item_id, none⟩

/-- Embeds `PressTarget::group` from `state.rs`. -/
def PressTarget.group (item_id : Nat) (group_index : Nat) : PressTarget :=
  ⟨item_id, some group_index⟩

/-- The association-list model of the `HashMap<PressKey, PressTarget>`. -/
abbrev PressMap := List (PressKey × PressTarget)

/-- Embeds `HashMap::insert` on the press map (replaces any prior binding,
so keys stay unique). -/
def pressInsert (pk : PressKey) (v : PressTarget) (m : PressMap) : PressMap :=
  (pk, v) :: m.filter fun p => p.1 ≠ pk

/-- Embeds the binding-dropping effect of `HashMap::remove` on the press
map. -/
def pressErase (pk : PressKey) (m : PressMap) : PressMap :=
  m.filter fun p => p.1 ≠ pk

/-- Embeds the lookup part of `HashMap::remove` (the returned binding). -/
def pressLookup (pk : PressKey) (m : PressMap) : Option PressTarget :=
  (m.find? fun p => p.1 = pk).map Prod.snd

/-- Embeds `DisplayState` from `state.rs`. -/
structure DisplayState where
  items : List DisplayItem
  repeat_tracker : RepeatTracker
  config : AppConfig
  next_id : Nat
  active_presses : PressMap
  ime_composing : Bool
  ime_native_composing : Bool
  ime_fallback_enabled : Bool
  ime_fallback_romaji : String
deriving DecidableEq

/-- Embeds `DisplayState::new` from `state.rs`; `now0` stands for the
`Instant::now()` used to seed the repeat tracker (its value is never
observable: the tracker's time is only read after `track` overwrote it). -/
def DisplayState.new (config : AppConfig) (now0 : Nat) : DisplayState :=
  { items := []
    repeat_tracker :=
      ⟨none, defaultModifiers, 0, now0, config.behavior.repeat_timeout_ms⟩
    config := config
    next_id := 0
    active_presses := []
    ime_composing := false
    ime_native_composing := false
    ime_fallback_enabled := false
    ime_fallback_romaji := "" }

/-- Recognizer for `DisplayItemKind::ImeComposition { .. }` match patterns. -/
def isImeCompositionKind : DisplayItemKind → Bool
  | .ImeComposition _ => true
  | _ => false

/-- Embeds `DisplayState::prune_active_press_targets` from `state.rs`:
drop every press target whose item id is no longer live. -/
def pruneTargets (items : List DisplayItem) (m : PressMap) : PressMap :=
  m.filter fun p => items.any fun it => it.id = p.2.item_id

/-- Embeds the `while self.items.len() > max_items { self.items.remove(0) }`
eviction loop of `DisplayState::add_item`.  Each iteration drops the front
element, so the fuel `l.length` supplied by `add_item` always suffices. -/
def trimFront (maxItems : Nat) : Nat → List DisplayItem → List DisplayItem
  | 0, l => l
  | fuel + 1, l => if l.length > maxItems then trimFront maxItems fuel l.tail else l

/-- Embeds `DisplayState::add_item` from `state.rs` (returns the new state
and the fresh item id). -/
def DisplayState.add_item (s : DisplayState) (kind : DisplayItemKind)
    (now : Nat) : DisplayState × Nat :=
  let item : DisplayItem :=
    { id := s.next_id, kind := kind, created_at := now, opacity := 1,
      phase := DisplayPhase.Active }
  let items1 := s.items ++ [item]
  let items2 := trimFront s.config.display.max_items items1.length items1
  ({ s with
      items := items2, next_id := s.next_id + 1,
      active_presses := pruneTargets items2 s.active_presses }, s.next_id)

/-- Embeds `DisplayState::remap_item_target_to_group_first` from
`state.rs`. -/
def remap_to_group_first (item_id : Nat) (m : PressMap) : PressMap :=
  m.map fun p =>
    if p.2.item_id = item_id ∧ p.2.group_index = none then
      (p.1, { p.2 with group_index := some 0 })
    else p

/-- Embeds `DisplayState::add_keystroke` from `state.rs` (returns the new
state and the press target of the added or grouped stroke). -/
def DisplayState.add_keystroke (s : DisplayState) (label : String)
    (modifiers : Modifiers) (action : KeyAction) (now : Nat) :
    DisplayState × PressTarget :=
  if s.config.behavior.group_timeout_ms = 0 then
    let r := s.add_item (.KeyStroke label modifiers action 1) now
    (r.1, PressTarget.item r.2)
  else
    let group_timeout := s.config.behavior.group_timeout_ms
    let max_group := s.config.behavior.max_group_size
    let new_entry : KeyStrokeEntry := ⟨label, modifiers, action, 1⟩
    match s.items.getLast? with
    | some last =>
      if last.phase = DisplayPhase.Active ∧ now - last.created_at < group_timeout then
        match last.kind with
        | .KeyStroke l m a rc =>
          let first : KeyStrokeEntry := ⟨l, m, a, rc⟩
          let last2 :=
            { last with
                kind := DisplayItemKind.KeyStrokeGroup [first, new_entry],
                created_at := now }
          ({ s with
              items := s.items.dropLast ++ [last2],
              active_presses := remap_to_group_first last.id s.active_presses },
           PressTarget.group last.id 1)
        | .KeyStrokeGroup strokes =>
          if strokes.length < max_group then
            let last2 :=
              { last with
                kind := DisplayItemKind.KeyStrokeGroup (strokes ++ [new_entry]),
                created_at := now }
            ({ s with items := s.items.dropLast ++ [last2] },
             PressTarget.group last.id strokes.length)
          else
            let r := s.add_item (.KeyStroke label modifiers action 1) now
            (r.1, PressTarget.item r.2)
        | _ =>
          let r := s.add_item (.KeyStroke label modifiers action 1) now
          (r.1, PressTarget.item r.2)
      else
        let r := s.add_item (.KeyStroke label modifiers action 1) now
        (r.1, PressTarget.item r.2)
    | none =>
      let r := s.add_item (.KeyStroke label modifiers action 1) now
      (r.1, PressTarget.item r.2)

/-- Embeds `shortcut_matches` from `state.rs`: the flag-accumulating loop
over the parts of the shortcut definition (last non-modifier part wins). -/
def shortcut_flags (parts : List String) :
    Bool × Bool × Bool × Bool × Option String :=
  parts.foldl
    (fun acc part =>
      let (c, sft, a, w, kp) := acc
      if part = "Ctrl" then (true, sft, a, w, kp)
      else if part = "Shift" then (c, true, a, w, kp)
      else if part = "Alt" then (c, sft, true, w, kp)
      else if part = "Win" then (c, sft, a, true, kp)
      else (c, sft, a, w, some part))
    (false, false, false, false, none)

/-- Embeds `shortcut_matches` from `state.rs`. -/
def shortcut_matches (keys_str : String) (ke : KeyEvent) : Bool :=
  let parts := keys_str.splitOn "+"
  if parts.isEmpty then false
  else
    let (need_ctrl, need_shift, need_alt, need_win, key_part) :=
      shortcut_flags parts
    if ke.modifiers.ctrl ≠ need_ctrl ∨ ke.modifiers.shift ≠ need_shift ∨
        ke.modifiers.alt ≠ need_alt ∨ ke.modifiers.win ≠ need_win then
      false
    else
      match key_part with
      | none => false
      | some expected_key => ke.key.label = expected_key

/-- Embeds `DisplayState::match_shortcut` from `state.rs`. -/
def DisplayState.match_shortcut (s : DisplayState) (ke : KeyEvent) :
    Option ShortcutDef :=
  if ke.action ≠ KeyAction.Down ∨ ke.modifiers.any = false then none
  else s.config.shortcuts.find? fun sc => shortcut_matches sc.keys ke

/-- Embeds `should_suppress_during_ime_composition` from `state.rs`. -/
def should_suppress_during_ime_composition (ke : KeyEvent) : Bool :=
  if ke.modifiers.ctrl || ke.modifiers.alt || ke.modifiers.win then false
  else
    let vk := ke.key.code % 256
    (0x30 ≤ vk ∧ vk ≤ 0x5A) ∨ (0xBA ≤ vk ∧ vk ≤ 0xE2)

/-- Embeds `DisplayState::refresh_item` from `state.rs`. -/
def refresh_item (it : DisplayItem) (now : Nat) : DisplayItem :=
  { it with created_at := now, opacity := 1, phase := DisplayPhase.Active }

/-- Embeds the per-item body of the newest-to-oldest scan in
`DisplayState::update_repeat_count`: try to bump the repeat count of one
item, returning the mutated item and its press target on a structural
match. -/
def try_update_repeat (count : Nat) (force_down_state : Bool)
    (it : DisplayItem) : Option (DisplayItem × PressTarget) :=
  match it.kind with
  | .KeyStroke l m a _ =>
    if a = KeyAction.Down ∨ force_down_state then
      let a2 := if force_down_state then KeyAction.Down else a
      some ({ it with kind := DisplayItemKind.KeyStroke l m a2 count },
            PressTarget.item it.id)
    else none
  | .KeyStrokeGroup strokes =>
    match strokes.getLast? with
    | some lastE =>
      if lastE.action = KeyAction.Down ∨ force_down_state then
        let lastE2 :=
          { lastE with
            action := if force_down_state then KeyAction.Down else lastE.action,
            repeat_count := count }
        some ({ it with
                kind := DisplayItemKind.KeyStrokeGroup
                  (strokes.dropLast ++ [lastE2]) },
              PressTarget.group it.id (strokes.length - 1))
      else none
    | none => none
  | _ => none

/-- Embeds the reversed iteration of `DisplayState::update_repeat_count`:
the input list is the item list newest first; the first structurally
compatible item is updated and refreshed. -/
def updRevRepeat (count now : Nat) (force_down_state : Bool) :
    List DisplayItem → Option PressTarget × List DisplayItem
  | [] => (none, [])
  | it :: rest =>
    match try_update_repeat count force_down_state it with
    | some (it2, tgt) => (some tgt, refresh_item it2 now :: rest)
    | none =>
      let r := updRevRepeat count now force_down_state rest
      (r.1, it :: r.2)

/-- Embeds `DisplayState::update_repeat_count` from `state.rs`. -/
def DisplayState.update_repeat_count (s : DisplayState) (count now : Nat)
    (force_down_state : Bool) : Option PressTarget × DisplayState :=
  let r := updRevRepeat count now force_down_state s.items.reverse
  (r.1, { s with items := r.2.reverse })

/-- Embeds the mutation applied by `DisplayState::apply_key_up_to_existing`
to the found item: flip the targeted action to Up and, when something was
updated, refresh the item's timer. -/
def upKeyUpdate (target : PressTarget) (now : Nat) (it : DisplayItem) :
    DisplayItem :=
  match it.kind with
  | .KeyStroke l m _ rc =>
    refresh_item { it with kind := DisplayItemKind.KeyStroke l m KeyAction.Up rc } now
  | .KeyStrokeGroup strokes =>
    match target.group_index with
    | some idx =>
      match strokes[idx]? with
      | some e =>
        refresh_item
          { it with
            kind := DisplayItemKind.KeyStrokeGroup
              (strokes.set idx { e with action := KeyAction.Up }) } now
      | none => it
    | none => it
  | _ => it

/-- Embeds `iter_mut().find(|item| item.id == i)` followed by an in-place
mutation: rewrite the first item with the given id. -/
def modifyFirstWithId (i : Nat) (f : DisplayItem → DisplayItem) :
    List DisplayItem → List DisplayItem
  | [] => []
  | it :: rest =>
    if it.id = i then f it :: rest else it :: modifyFirstWithId i f rest

/-- Embeds `DisplayState::apply_key_up_to_existing` from `state.rs`. -/
def DisplayState.apply_key_up_to_existing (s : DisplayState) (ke : KeyEvent)
    (now : Nat) : DisplayState :=
  match pressLookup (PressKey.from_key_event ke) s.active_presses with
  | none => s
  | some target =>
    let s1 :=
      { s with
        active_presses := pressErase (PressKey.from_key_event ke) s.active_presses }
    { s1 with items := modifyFirstWithId target.item_id (upKeyUpdate target now) s1.items }

/-- Embeds the `iter_mut().any(...)` update loop shared by
`process_ime_event` (`CompositionUpdate`, lines 360-369, which does not
touch `created_at`) and `apply_ime_fallback_text` (lines 829-839, which
also resets `created_at` to `now`): rewrite the text of the first live
`ImeComposition` item, report whether one was found. -/
def setCompText (text : String) (resetCreated : Option Nat) :
    List DisplayItem → Bool × List DisplayItem
  | [] => (false, [])
  | it :: rest =>
    match it.kind with
    | .ImeComposition _ =>
      (true,
       { it with
           kind := DisplayItemKind.ImeComposition text,
           phase := DisplayPhase.Active, opacity := 1,
           created_at := resetCreated.getD it.created_at } :: rest)
    | _ =>
      let r := setCompText text resetCreated rest
      (r.1, it :: r.2)

/-- Embeds `DisplayState::apply_ime_fallback_text` from `state.rs`. -/
def DisplayState.apply_ime_fallback_text (s : DisplayState) (now : Nat) :
    DisplayState :=
  let text := romaji_to_hiragana s.ime_fallback_romaji
  if text = "" then
    let items2 := s.items.filter fun it => !(isImeCompositionKind it.kind)
    { s with
        ime_composing := false, ime_native_composing := false,
        items := items2, active_presses := pruneTargets items2 s.active_presses }
  else
    let s1 := { s with ime_composing := true, ime_native_composing := false }
    let r := setCompText text (some now) s1.items
    if r.1 then { s1 with items := r.2 }
    else (s1.add_item (.ImeComposition text) now).1

/-- Embeds `DisplayState::handle_ime_toggle_key` from `state.rs` (the
returned flag is the `bool` of the Rust method; a `false` comes with the
untouched state, mirroring the early return). -/
def DisplayState.handle_ime_toggle_key (s : DisplayState) (ke : KeyEvent) :
    Bool × DisplayState :=
  let vk := ke.key.code % 256
  let is_hankaku_zenkaku :=
    ke.scan_code = 0x29 ∨ (vk = 0xC0 ∧ ke.scan_code = 0x29)
  if ¬ (vk = 0x15 ∨ vk = 0x16 ∨ vk = 0x19 ∨ vk = 0x1A) ∧ ¬ is_hankaku_zenkaku then
    (false, s)
  else if ke.action = KeyAction.Down then
    let enabled : Bool :=
      if vk = 0x16 then true
      else if vk = 0x1A then false
      else if vk = 0x15 ∨ vk = 0x19 then !s.ime_fallback_enabled
      else if vk = 0xC0 ∧ is_hankaku_zenkaku then !s.ime_fallback_enabled
      else if is_hankaku_zenkaku then !s.ime_fallback_enabled
      else s.ime_fallback_enabled
    if enabled = false then
      let items2 := s.items.filter fun it => !(isImeCompositionKind it.kind)
      (true,
       { s with
           ime_fallback_enabled := enabled, ime_composing := false,
           ime_native_composing := false, ime_fallback_romaji := "",
           items := items2,
           active_presses := pruneTargets items2 s.active_presses })
    else (true, { s with ime_fallback_enabled := enabled })
  else (true, s)

/-- Embeds `DisplayState::handle_ime_fallback_key` from `state.rs`. -/
def DisplayState.handle_ime_fallback_key (s : DisplayState) (ke : KeyEvent) :
    Bool × DisplayState :=
  if !s.config.behavior.show_ime_composition || !s.ime_fallback_enabled ||
      s.ime_native_composing || ke.modifiers.ctrl || ke.modifiers.alt ||
      ke.modifiers.win then
    (false, s)
  else
    let vk := ke.key.code % 256
    let is_letter := 0x41 ≤ vk ∧ vk ≤ 0x5A
    let is_control_key :=
      vk = 0x08 ∨ vk = 0x0D ∨ vk = 0x1B ∨ vk = 0x09 ∨ vk = 0x20
    if ke.action = KeyAction.Up then (decide (is_letter ∨ is_control_key), s)
    else if is_letter then
      let c := (Char.ofNat vk).toLower
      let s1 := { s with ime_fallback_romaji := s.ime_fallback_romaji.push c }
      (true, s1.apply_ime_fallback_text ke.timestamp)
    else if vk = 0x08 then
      let s1 := { s with ime_fallback_romaji := s.ime_fallback_romaji.dropRight 1 }
      (true, s1.apply_ime_fallback_text ke.timestamp)
    else if vk = 0x0D ∨ vk = 0x1B ∨ vk = 0x09 ∨ vk = 0x20 then
      let items2 := s.items.filter fun it => !(isImeCompositionKind it.kind)
      (true,
       { s with
           ime_fallback_romaji := "", ime_composing := false,
           items := items2,
           active_presses := pruneTargets items2 s.active_presses })
    else (false, s)

/-- Embeds the target-computing `let target = ...` block of the `Down` arm
of `process_key_event` (`state.rs` lines 244-273): repeat tracking, the
repeat-count bump with fallback, or a plain keystroke add. -/
def DisplayState.process_key_down_add (s : DisplayState) (ke : KeyEvent)
    (display_label : String) (now : Nat) : DisplayState × PressTarget :=
  if s.config.behavior.show_repeat_count then
    let tr := s.repeat_tracker.track ke.key ke.modifiers now
    let sA := { s with repeat_tracker := tr.2 }
    if tr.1 > 1 then
      let force :=
        s.config.behavior.key_transition_mode = KeyTransitionMode.SingleCell
      match sA.update_repeat_count tr.1 now force with
      | (some tgt, sB) => (sB, tgt)
      | (none, _) => sA.add_keystroke display_label ke.modifiers KeyAction.Down now
    else sA.add_keystroke display_label ke.modifiers KeyAction.Down now
  else s.add_keystroke display_label ke.modifiers KeyAction.Down now

/-- Embeds `DisplayState::process_key_event` from `state.rs`. -/
def DisplayState.process_key_event (s : DisplayState) (ke : KeyEvent) :
    DisplayState :=
  let full_label := ke.key.label
  if s.config.behavior.ignored_keys.any
      (fun k => eqIgnoreAsciiCase k full_label) then s
  else
    match s.handle_ime_toggle_key ke with
    | (true, s1) => s1
    | (false, _) =>
      match s.handle_ime_fallback_key ke with
      | (true, s1) => s1
      | (false, _) =>
        if s.ime_composing && should_suppress_during_ime_composition ke then s
        else
          let now := ke.timestamp
          let display_label :=
            if s.config.behavior.distinguish_numpad then ke.key.label
            else ke.key.label_plain
          match ke.action with
          | KeyAction.Down =>
            if ke.key.is_modifier then s
            else
              match s.match_shortcut ke with
              | some sc =>
                let s1 := (s.add_item (.Shortcut sc.keys sc.label) now).1
                { s1 with
                  active_presses :=
                    pressErase (PressKey.from_key_event ke) s1.active_presses }
              | none =>
                let r := s.process_key_down_add ke display_label now
                if s.config.behavior.key_transition_mode =
                    KeyTransitionMode.SingleCell then
                  { r.1 with
                    active_presses :=
                      pressInsert (PressKey.from_key_event ke) r.2 r.1.active_presses }
                else r.1
          | KeyAction.Up =>
            if ke.key.is_modifier then s
            else
              match s.config.behavior.key_transition_mode with
              | KeyTransitionMode.SingleCell => s.apply_key_up_to_existing ke now
              | KeyTransitionMode.SplitCells =>
                let s1 :=
                  { s with
                    active_presses :=
                      pressErase (PressKey.from_key_event ke) s.active_presses }
                (s1.add_keystroke display_label ke.modifiers KeyAction.Up now).1

/-- Embeds `DisplayState::process_mouse_event` from `state.rs`. -/
def DisplayState.process_mouse_event (s : DisplayState) (me : MouseEvent) :
    DisplayState :=
  let label :=
    match me.button with
    | .Left => "LClick"
    | .Right => "RClick"
    | .Middle => "MClick"
    | .X1 => "X1Click"
    | .X2 => "X2Click"
  match me.action with
  | .Up => s
  | .Down =>
    (s.add_item (.KeyStroke label defaultModifiers KeyAction.Down 1) me.timestamp).1
  | .Wheel delta =>
    let wheel_label := if delta > 0 then "WheelUp" else "WheelDown"
    (s.add_item (.KeyStroke wheel_label defaultModifiers KeyAction.Down 1)
      me.timestamp).1

/-- Embeds `DisplayState::process_ime_event` from `state.rs`. -/
def DisplayState.process_ime_event (s : DisplayState) (ie : ImeEvent) :
    DisplayState :=
  if !s.config.behavior.show_ime_composition then s
  else
    match ie.kind with
    | .StateChanged enabled =>
      if !enabled then
        let items2 := s.items.filter fun it => !(isImeCompositionKind it.kind)
        { s with
            ime_fallback_enabled := false, ime_composing := false,
            ime_native_composing := false, ime_fallback_romaji := "",
            items := items2,
            active_presses := pruneTargets items2 s.active_presses }
      else s
    | .CompositionUpdate text =>
      let s1 :=
        { s with
            ime_composing := true, ime_native_composing := true,
            ime_fallback_romaji := "" }
      let r := setCompText text none s1.items
      if r.1 then { s1 with items := r.2 }
      else (s1.add_item (.ImeComposition text) ie.timestamp).1
    | .CompositionEnd _ =>
      if s.ime_native_composing then
        let items2 := s.items.filter fun it => !(isImeCompositionKind it.kind)
        { s with
            ime_composing := false, ime_native_composing := false,
            ime_fallback_romaji := "", items := items2,
            active_presses := pruneTargets items2 s.active_presses }
      else if !s.ime_fallback_enabled then
        let items2 := s.items.filter fun it => !(isImeCompositionKind it.kind)
        { s with
            ime_composing := false, items := items2,
            active_presses := pruneTargets items2 s.active_presses }
      else s

/-- Embeds `DisplayState::process_clipboard_event` from `state.rs`
(truncation counts characters, as `chars().count()` and `chars().take`
do). -/
def DisplayState.process_clipboard_event (s : DisplayState)
    (ce : ClipboardEvent) : DisplayState :=
  if !s.config.behavior.show_clipboard then s
  else
    let text :=
      match ce.content with
      | .Text str =>
        let maxChars := s.config.behavior.clipboard_max_chars
        if str.data.length > maxChars then
          String.mk (str.data.take maxChars) ++ "..."
        else str
      | .Image w h => "[Image " ++ toString w ++ "x" ++ toString h ++ "]"
      | .Other => "[Clipboard]"
    (s.add_item (.ClipboardPreview text) ce.timestamp).1

/-- Embeds `DisplayState::process_lock_event` from `state.rs`. -/
def DisplayState.process_lock_event (s : DisplayState) (ls : LockStateEvent) :
    DisplayState :=
  if !s.config.behavior.show_lock_indicators then s
  else
    (s.add_item (.LockIndicator ls.caps_lock ls.num_lock ls.scroll_lock)
      ls.timestamp).1

/-- Embeds `DisplayState::process_event` from `state.rs`. -/
def DisplayState.process_event (s : DisplayState) : InputEvent → DisplayState
  | .Key ke => s.process_key_event ke
  | .Mouse me => s.process_mouse_event me
  | .Ime ie => s.process_ime_event ie
  | .Clipboard ce => s.process_clipboard_event ce
  | .LockState ls => s.process_lock_event ls
  | .DpiChanged _ _ => s
  | .ConfigChanged => s

/-- Embeds the Rust `f32::clamp` on rationals: `clampQ x lo hi` is
`if x < lo then lo else if x > hi then hi else x`. -/
def clampQ (x lo hi : ℚ) : ℚ :=
  if x < lo then lo else if x > hi then hi else x

/-- Embeds the fade-progress computation of `DisplayState::tick` for an
item in `FadingOut` phase (`as_secs_f32` scales both durations by the same
factor, so the quotient of milliseconds is the same number). -/
def fade_progress (cfg : AppConfig) (now : Nat) (it : DisplayItem) : ℚ :=
  let fade_start := it.created_at + cfg.display.display_duration_ms
  let fade_elapsed : Nat := now - fade_start
  clampQ ((fade_elapsed : ℚ) / (cfg.display.fade_duration_ms : ℚ)) 0 1

/-- Embeds the opacity formula of `DisplayState::tick` for an item in
`FadingOut` phase, by fade curve. -/
def fade_opacity (cfg : AppConfig) (now : Nat) (it : DisplayItem) : ℚ :=
  let progress := fade_progress cfg now it
  match cfg.animation.fade_out_curve with
  | .Linear => max (1 - progress) 0
  | .EaseOut => max ((1 - progress) * (1 - progress)) 0

/-- Embeds the per-item body of the `for item in &mut self.items` loop of
`DisplayState::tick`. -/
def tickItem (cfg : AppConfig) (now : Nat) (it : DisplayItem) : DisplayItem :=
  match it.phase with
  | .Active =>
    if now - it.created_at ≥ cfg.display.display_duration_ms then
      { it with phase := DisplayPhase.FadingOut }
    else it
  | .FadingOut =>
    let op := fade_opacity cfg now it
    let it2 := { it with opacity := op }
    if op ≤ 0 then { it2 with phase := DisplayPhase.Expired } else it2
  | .Expired => it

/-- Embeds `DisplayState::tick` from `state.rs`. -/
def DisplayState.tick (s : DisplayState) (now : Nat) : DisplayState :=
  let items2 :=
    (s.items.map (tickItem s.config now)).filter fun it =>
      it.phase ≠ DisplayPhase.Expired
  { s with items := items2, active_presses := pruneTargets items2 s.active_presses }

/-- Embeds `DisplayState::active_items` from `state.rs`. -/
def DisplayState.active_items (s : DisplayState) : List DisplayItem := s.items

/-- Embeds `DisplayState::clear` from `state.rs` (note: the Rust method
does not touch `ime_fallback_enabled`). -/
def DisplayState.clear (s : DisplayState) : DisplayState :=
  { s with
      items := [], active_presses := [], ime_composing := false,
      ime_native_composing := false, ime_fallback_romaji := "" }

/-- Embeds `DisplayState::update_config` from `state.rs`. -/
def DisplayState.update_config (s : DisplayState) (config : AppConfig) :
    DisplayState :=
  let presses1 :=
    if s.config.behavior.key_transition_mode ≠ config.behavior.key_transition_mode
    then [] else s.active_presses
  { s with
      config := config,
      repeat_tracker :=
        { s.repeat_tracker with timeout := config.behavior.repeat_timeout_ms },
      active_presses := pruneTargets s.items presses1 }

/-- A public operation of the engine, as enumerated by claim C4. -/
inductive EngineOp where
  | event (e : InputEvent)
  | tickOp (now : Nat)
  | clearOp
  | updateConfig (c : AppConfig)

/-- Applies one public operation to the engine state. -/
def applyOp (s : DisplayState) : EngineOp → DisplayState
  | .event e => s.process_event e
  | .tickOp now => s.tick now
  | .clearOp => s.clear
  | .updateConfig c => s.update_config c

/-- Runs a sequence of public operations from a starting state. -/
def runOps (s : DisplayState) (ops : List EngineOp) : DisplayState :=
  ops.foldl applyOp s

/-- An operation that keeps the configuration fixed (claim C1 quantifies
over sequences of `process_event` and `tick` calls only). -/
def EngineOp.fixedConfig : EngineOp → Prop
  | .event _ => True
  | .tickOp _ => True
  | .clearOp => False
  | .updateConfig _ => False

/-- Every configuration installed by the operation has been validated
(`AppConfig::validate` in `config.rs` rejects `max_items == 0`, and spec
section 6 guarantees the core only receives validated snapshots). -/
def EngineOp.validConfig : EngineOp → Prop
  | .updateConfig c => 1 ≤ c.display.max_items
  | _ => True


/-! ## Invariants -/

/-- The bounding invariant of spec section 8: the item list never exceeds
the configured `max_items`. -/
def LenInv (s : DisplayState) : Prop :=
  s.items.length ≤ s.config.display.max_items

/-- The press-target invariant of spec section 3: every live
`PressTarget.item_id` references a currently-present `DisplayItem`. -/
def TargetsLive (s : DisplayState) : Prop :=
  ∀ p ∈ s.active_presses, p.2.item_id ∈ s.items.map DisplayItem.id

/-! ## List-level helper lemmas -/

theorem trimFront_length_le (maxItems : Nat) :
    ∀ (fuel : Nat) (l : List DisplayItem), l.length ≤ maxItems + fuel →
      (trimFront maxItems fuel l).length ≤ maxItems := by
  intro fuel
  induction fuel with
  | zero => intro l h; simpa [trimFront] using h
  | succ n ih =>
    intro l h
    rw [trimFront]
    split
    · exact ih l.tail (by simp [List.length_tail]; omega)
    · omega

theorem trimFront_getLast? (maxItems : Nat) (hmax : 1 ≤ maxItems) :
    ∀ (fuel : Nat) (l : List DisplayItem),
      (trimFront maxItems fuel l).getLast? = l.getLast? := by
  intro fuel
  induction fuel with
  | zero => intro l; rfl
  | succ n ih =>
    intro l
    rw [trimFront]
    split
    · rename_i hlen
      match l with
      | [] => simp at hlen
      | [x] => simp at hlen; omega
      | x :: y :: t =>
        rw [List.getLast?_cons_cons]
        exact ih (y :: t)
    · rfl

theorem mem_of_getLast?_eq (l : List DisplayItem) (a : DisplayItem)
    (h : l.getLast? = some a) : a ∈ l := by
  rcases List.mem_getLast?_eq_getLast (l := l) (by rw [h]; rfl) with ⟨hne, rfl⟩
  exact List.getLast_mem hne

theorem dropLast_append_of_getLast? (l : List DisplayItem) (a : DisplayItem)
    (h : l.getLast? = some a) : l.dropLast ++ [a] = l :=
  List.dropLast_append_getLast? a (by rw [h]; rfl)

theorem modLast_map_id (l : List DisplayItem) (a x : DisplayItem)
    (h : l.getLast? = some a) (hx : x.id = a.id) :
    (l.dropLast ++ [x]).map DisplayItem.id = l.map DisplayItem.id := by
  conv_rhs => rw [← dropLast_append_of_getLast? l a h]
  simp [hx]

theorem pruneTargets_live (items : List DisplayItem) (m : PressMap) :
    ∀ p ∈ pruneTargets items m, p.2.item_id ∈ items.map DisplayItem.id := by
  intro p hp
  rcases List.mem_filter.mp hp with ⟨-, hval⟩
  rcases List.any_eq_true.mp hval with ⟨it, hit, heq⟩
  simp only [decide_eq_true_eq] at heq
  exact heq ▸ List.mem_map_of_mem DisplayItem.id hit

theorem pruneTargets_subset (items : List DisplayItem) (m : PressMap) :
    ∀ p ∈ pruneTargets items m, p ∈ m := fun _ hp =>
  (List.mem_filter.mp hp).1

theorem pressErase_subset (pk : PressKey) (m : PressMap) :
    ∀ p ∈ pressErase pk m, p ∈ m := fun _ hp =>
  (List.mem_filter.mp hp).1

theorem pressInsert_mem (pk : PressKey) (v : PressTarget) (m : PressMap) :
    ∀ p ∈ pressInsert pk v m, p = (pk, v) ∨ p ∈ m := by
  intro p hp
  simp only [pressInsert] at hp
  rcases List.mem_cons.mp hp with h | h
  · exact Or.inl h
  · exact Or.inr (List.mem_filter.mp h).1

theorem remap_to_group_first_item_id (item_id : Nat) (m : PressMap) :
    ∀ p ∈ remap_to_group_first item_id m,
      ∃ q ∈ m, q.2.item_id = p.2.item_id := by
  intro p hp
  rcases List.mem_map.mp hp with ⟨q, hq, hpq⟩
  refine ⟨q, hq, ?_⟩
  subst hpq
  split
  · rfl
  · rfl

/-! ## Helper-operation lemmas -/

theorem setCompText_map_id (text : String) (resetCreated : Option Nat) :
    ∀ l : List DisplayItem,
      ((setCompText text resetCreated l).2).map DisplayItem.id =
        l.map DisplayItem.id := by
  intro l
  induction l with
  | nil => rfl
  | cons it rest ih =>
    rw [setCompText]
    split
    · simp
    · simpa using ih

theorem setCompText_length (text : String) (resetCreated : Option Nat)
    (l : List DisplayItem) :
    ((setCompText text resetCreated l).2).length = l.length := by
  have h := setCompText_map_id text resetCreated l
  have := congrArg List.length h
  simpa using this

theorem try_update_repeat_id (count : Nat) (force : Bool) (it it2 : DisplayItem)
    (tgt : PressTarget) (h : try_update_repeat count force it = some (it2, tgt)) :
    it2.id = it.id ∧ tgt.item_id = it.id := by
  unfold try_update_repeat at h
  split at h
  · split at h
    · simp only [Option.some.injEq, Prod.mk.injEq] at h
      obtain ⟨h1, h2⟩ := h
      subst h1
      subst h2
      exact ⟨rfl, rfl⟩
    · exact absurd h (by simp)
  · split at h
    · split at h
      · simp only [Option.some.injEq, Prod.mk.injEq] at h
        obtain ⟨h1, h2⟩ := h
        subst h1
        subst h2
        exact ⟨rfl, rfl⟩
      · exact absurd h (by simp)
    · exact absurd h (by simp)
  · exact absurd h (by simp)

theorem refresh_item_id (it : DisplayItem) (now : Nat) :
    (refresh_item it now).id = it.id := rfl

theorem updRevRepeat_map_id (count now : Nat) (force : Bool) :
    ∀ l : List DisplayItem,
      ((updRevRepeat count now force l).2).map DisplayItem.id =
        l.map DisplayItem.id := by
  intro l
  induction l with
  | nil => rfl
  | cons it rest ih =>
    rw [updRevRepeat]
    split
    · rename_i it2 tgt heq
      have hid := (try_update_repeat_id count force it it2 tgt heq).1
      simp [refresh_item_id, hid]
    · simpa using ih

theorem updRevRepeat_target (count now : Nat) (force : Bool) :
    ∀ (l : List DisplayItem) (tgt : PressTarget),
      (updRevRepeat count now force l).1 = some tgt →
        tgt.item_id ∈ l.map DisplayItem.id := by
  intro l
  induction l with
  | nil => intro tgt h; exact absurd h (by simp [updRevRepeat])
  | cons it rest ih =>
    intro tgt h
    rw [updRevRepeat] at h
    split at h
    · rename_i it2 tgt2 heq
      have htg : tgt2 = tgt := Option.some.inj h
      subst htg
      have hid := (try_update_repeat_id count force it it2 tgt2 heq).2
      simp [hid]
    · simp only [List.map_cons, List.mem_cons]
      exact Or.inr (ih tgt h)

theorem update_repeat_count_map_id (s : DisplayState) (count now : Nat)
    (force : Bool) :
    ((s.update_repeat_count count now force).2).items.map DisplayItem.id =
      s.items.map DisplayItem.id := by
  show ((updRevRepeat count now force s.items.reverse).2.reverse).map
      DisplayItem.id = s.items.map DisplayItem.id
  rw [List.map_reverse, updRevRepeat_map_id, ← List.map_reverse,
    List.reverse_reverse]

theorem update_repeat_count_target (s : DisplayState) (count now : Nat)
    (force : Bool) (tgt : PressTarget)
    (h : (s.update_repeat_count count now force).1 = some tgt) :
    tgt.item_id ∈ s.items.map DisplayItem.id := by
  have := updRevRepeat_target count now force s.items.reverse tgt h
  rw [List.map_reverse] at this
  exact List.mem_reverse.mp this

theorem update_repeat_count_presses (s : DisplayState) (count now : Nat)
    (force : Bool) :
    ((s.update_repeat_count count now force).2).active_presses =
      s.active_presses := rfl

theorem update_repeat_count_config (s : DisplayState) (count now : Nat)
    (force : Bool) :
    ((s.update_repeat_count count now force).2).config = s.config := rfl

theorem upKeyUpdate_id (target : PressTarget) (now : Nat) (it : DisplayItem) :
    (upKeyUpdate target now it).id = it.id := by
  unfold upKeyUpdate
  split
  · rfl
  · split
    · split
      · rfl
      · rfl
    · rfl
  · rfl

theorem modifyFirstWithId_map_id (i : Nat) (f : DisplayItem → DisplayItem)
    (hf : ∀ it, (f it).id = it.id) :
    ∀ l : List DisplayItem,
      (modifyFirstWithId i f l).map DisplayItem.id = l.map DisplayItem.id := by
  intro l
  induction l with
  | nil => rfl
  | cons it rest ih =>
    rw [modifyFirstWithId]
    split
    · simp [hf]
    · simpa using ih

theorem add_item_config (s : DisplayState) (kind : DisplayItemKind) (now : Nat) :
    ((s.add_item kind now).1).config = s.config := rfl

theorem add_item_len (s : DisplayState) (kind : DisplayItemKind) (now : Nat) :
    ((s.add_item kind now).1).items.length ≤ s.config.display.max_items := by
  simp only [DisplayState.add_item]
  exact trimFront_length_le _ _ _ (Nat.le_add_left _ _)

theorem add_item_live (s : DisplayState) (kind : DisplayItemKind) (now : Nat) :
    TargetsLive (s.add_item kind now).1 := by
  intro p hp
  exact pruneTargets_live _ _ p hp

theorem add_item_id_mem (s : DisplayState) (kind : DisplayItemKind) (now : Nat)
    (hmax : 1 ≤ s.config.display.max_items) :
    (s.add_item kind now).2 ∈ ((s.add_item kind now).1).items.map DisplayItem.id := by
  simp only [DisplayState.add_item]
  set it0 : DisplayItem :=
    { id := s.next_id, kind := kind, created_at := now, opacity := 1,
      phase := DisplayPhase.Active } with hit0
  have hLast := trimFront_getLast? s.config.display.max_items hmax
    (s.items ++ [it0]).length (s.items ++ [it0])
  rw [List.getLast?_concat] at hLast
  exact List.mem_map_of_mem DisplayItem.id (mem_of_getLast?_eq _ _ hLast)

theorem modLast_length (l : List DisplayItem) (a x : DisplayItem)
    (h : l.getLast? = some a) : (l.dropLast ++ [x]).length = l.length := by
  have hne : l ≠ [] := by
    intro he
    rw [he] at h
    exact Option.noConfusion h
  have hpos : 0 < l.length := List.length_pos.mpr hne
  simp [List.length_dropLast]
  omega

theorem add_keystroke_config (s : DisplayState) (lb : String) (m : Modifiers)
    (a : KeyAction) (now : Nat) :
    ((s.add_keystroke lb m a now).1).config = s.config := by
  unfold DisplayState.add_keystroke
  simp only []
  repeat' split
  all_goals rfl

theorem add_keystroke_len (s : DisplayState) (lb : String) (m : Modifiers)
    (a : KeyAction) (now : Nat)
    (hlen : s.items.length ≤ s.config.display.max_items) :
    ((s.add_keystroke lb m a now).1).items.length ≤
      s.config.display.max_items := by
  unfold DisplayState.add_keystroke
  simp only []
  split
  · exact add_item_len _ _ _
  · cases hlast : s.items.getLast? with
    | none => simp only [hlast]; exact add_item_len _ _ _
    | some lastv =>
      simp only [hlast]
      split
      · cases hkind : lastv.kind with
        | KeyStroke l0 m0 a0 rc0 =>
          simp only [hkind]
          rw [modLast_length s.items lastv _ hlast]
          exact hlen
        | KeyStrokeGroup strokes =>
          simp only [hkind]
          split
          · rw [modLast_length s.items lastv _ hlast]
            exact hlen
          · exact add_item_len _ _ _
        | Shortcut x y => simp only [hkind]; exact add_item_len _ _ _
        | ImeComposition t => simp only [hkind]; exact add_item_len _ _ _
        | ClipboardPreview t => simp only [hkind]; exact add_item_len _ _ _
        | LockIndicator c0 n0 s0 => simp only [hkind]; exact add_item_len _ _ _
      · exact add_item_len _ _ _

theorem add_keystroke_live (s : DisplayState) (lb : String) (m : Modifiers)
    (a : KeyAction) (now : Nat) (hlive : TargetsLive s)
    (hmax : 1 ≤ s.config.display.max_items) :
    TargetsLive ((s.add_keystroke lb m a now).1) ∧
      ((s.add_keystroke lb m a now).2).item_id ∈
        ((s.add_keystroke lb m a now).1).items.map DisplayItem.id := by
  unfold DisplayState.add_keystroke
  simp only []
  split
  · exact ⟨add_item_live _ _ _, add_item_id_mem _ _ _ hmax⟩
  · cases hlast : s.items.getLast? with
    | none =>
      simp only [hlast]
      exact ⟨add_item_live _ _ _, add_item_id_mem _ _ _ hmax⟩
    | some lastv =>
      simp only [hlast]
      split
      · cases hkind : lastv.kind with
        | KeyStroke l0 m0 a0 rc0 =>
          simp only [hkind]
          refine ⟨?_, ?_⟩
          · intro p hp
            rcases remap_to_group_first_item_id _ _ p hp with ⟨q, hq, hqid⟩
            have hmem := hlive q hq
            rw [← dropLast_append_of_getLast? s.items lastv hlast] at hmem
            rw [← hqid]
            simpa using hmem
          · simp [PressTarget.group]
        | KeyStrokeGroup strokes =>
          simp only [hkind]
          split
          · refine ⟨?_, ?_⟩
            · intro p hp
              have hmem := hlive p hp
              rw [← dropLast_append_of_getLast? s.items lastv hlast] at hmem
              simpa using hmem
            · simp [PressTarget.group]
          · exact ⟨add_item_live _ _ _, add_item_id_mem _ _ _ hmax⟩
        | Shortcut x y =>
          simp only [hkind]
          exact ⟨add_item_live _ _ _, add_item_id_mem _ _ _ hmax⟩
        | ImeComposition t =>
          simp only [hkind]
          exact ⟨add_item_live _ _ _, add_item_id_mem _ _ _ hmax⟩
        | ClipboardPreview t =>
          simp only [hkind]
          exact ⟨add_item_live _ _ _, add_item_id_mem _ _ _ hmax⟩
        | LockIndicator c0 n0 s0 =>
          simp only [hkind]
          exact ⟨add_item_live _ _ _, add_item_id_mem _ _ _ hmax⟩
      · exact ⟨add_item_live _ _ _, add_item_id_mem _ _ _ hmax⟩

theorem apply_key_up_config (s : DisplayState) (ke : KeyEvent) (now : Nat) :
    (s.apply_key_up_to_existing ke now).config = s.config := by
  unfold DisplayState.apply_key_up_to_existing
  simp only []
  split
  · rfl
  · rfl

theorem apply_key_up_map_id (s : DisplayState) (ke : KeyEvent) (now : Nat) :
    (s.apply_key_up_to_existing ke now).items.map DisplayItem.id =
      s.items.map DisplayItem.id := by
  unfold DisplayState.apply_key_up_to_existing
  simp only []
  split
  · rfl
  · exact modifyFirstWithId_map_id _ _ (fun it => upKeyUpdate_id _ _ it) s.items

theorem apply_key_up_len (s : DisplayState) (ke : KeyEvent) (now : Nat) :
    (s.apply_key_up_to_existing ke now).items.length = s.items.length := by
  have := congrArg List.length (apply_key_up_map_id s ke now)
  simpa using this

theorem apply_key_up_live (s : DisplayState) (ke : KeyEvent) (now : Nat)
    (hlive : TargetsLive s) :
    TargetsLive (s.apply_key_up_to_existing ke now) := by
  unfold DisplayState.apply_key_up_to_existing
  simp only []
  split
  · exact hlive
  · intro p hp
    have hsub := pressErase_subset _ _ p hp
    have := hlive p hsub
    rwa [modifyFirstWithId_map_id _ _ (fun it => upKeyUpdate_id _ _ it)]

theorem aift_config (s : DisplayState) (now : Nat) :
    (s.apply_ime_fallback_text now).config = s.config := by
  unfold DisplayState.apply_ime_fallback_text
  simp only []
  split
  · rfl
  · split
    · rfl
    · exact add_item_config _ _ _

theorem aift_len (s : DisplayState) (now : Nat)
    (hlen : s.items.length ≤ s.config.display.max_items) :
    (s.apply_ime_fallback_text now).items.length ≤
      s.config.display.max_items := by
  unfold DisplayState.apply_ime_fallback_text
  simp only []
  split
  · exact le_trans (List.length_filter_le _ _) hlen
  · split
    · rw [setCompText_length]
      exact hlen
    · exact add_item_len _ _ _

theorem aift_live (s : DisplayState) (now : Nat) (hlive : TargetsLive s) :
    TargetsLive (s.apply_ime_fallback_text now) := by
  unfold DisplayState.apply_ime_fallback_text
  simp only []
  split
  · intro p hp
    exact pruneTargets_live _ _ p hp
  · split
    · intro p hp
      have := hlive p hp
      rwa [setCompText_map_id]
    · exact add_item_live _ _ _

theorem toggle_config (s : DisplayState) (ke : KeyEvent) :
    ((s.handle_ime_toggle_key ke).2).config = s.config := by
  unfold DisplayState.handle_ime_toggle_key
  simp only []
  repeat' split
  all_goals rfl

theorem toggle_len (s : DisplayState) (ke : KeyEvent)
    (hlen : s.items.length ≤ s.config.display.max_items) :
    ((s.handle_ime_toggle_key ke).2).items.length ≤
      s.config.display.max_items := by
  unfold DisplayState.handle_ime_toggle_key
  simp only []
  repeat' split
  all_goals first
  | exact hlen
  | exact le_trans (List.length_filter_le _ _) hlen

theorem toggle_live (s : DisplayState) (ke : KeyEvent)
    (hlive : TargetsLive s) :
    TargetsLive ((s.handle_ime_toggle_key ke).2) := by
  unfold DisplayState.handle_ime_toggle_key
  simp only []
  repeat' split
  all_goals first
  | exact hlive
  | exact fun p hp => pruneTargets_live _ _ p hp

theorem fallback_config (s : DisplayState) (ke : KeyEvent) :
    ((s.handle_ime_fallback_key ke).2).config = s.config := by
  unfold DisplayState.handle_ime_fallback_key
  simp only []
  split
  · rfl
  · split
    · rfl
    · split
      · exact aift_config _ _
      · split
        · exact aift_config _ _
        · split
          · rfl
          · rfl

theorem fallback_len (s : DisplayState) (ke : KeyEvent)
    (hlen : s.items.length ≤ s.config.display.max_items) :
    ((s.handle_ime_fallback_key ke).2).items.length ≤
      s.config.display.max_items := by
  unfold DisplayState.handle_ime_fallback_key
  simp only []
  split
  · exact hlen
  · split
    · exact hlen
    · split
      · exact aift_len _ _ hlen
      · split
        · exact aift_len _ _ hlen
        · split
          · exact le_trans (List.length_filter_le _ _) hlen
          · exact hlen

theorem fallback_live (s : DisplayState) (ke : KeyEvent)
    (hlive : TargetsLive s) :
    TargetsLive ((s.handle_ime_fallback_key ke).2) := by
  unfold DisplayState.handle_ime_fallback_key
  simp only []
  split
  · exact hlive
  · split
    · exact hlive
    · split
      · refine aift_live _ _ ?_
        exact fun p hp => hlive p hp
      · split
        · refine aift_live _ _ ?_
          exact fun p hp => hlive p hp
        · split
          · exact fun p hp => pruneTargets_live _ _ p hp
          · exact hlive

theorem process_ime_config (s : DisplayState) (ie : ImeEvent) :
    (s.process_ime_event ie).config = s.config := by
  unfold DisplayState.process_ime_event
  split
  · rfl
  · split
    · split
      · rfl
      · rfl
    · simp only []
      split
      · rfl
      · exact add_item_config _ _ _
    · split
      · rfl
      · split
        · rfl
        · rfl

theorem process_ime_len (s : DisplayState) (ie : ImeEvent)
    (hlen : s.items.length ≤ s.config.display.max_items) :
    (s.process_ime_event ie).items.length ≤ s.config.display.max_items := by
  unfold DisplayState.process_ime_event
  split
  · exact hlen
  · split
    · split
      · exact le_trans (List.length_filter_le _ _) hlen
      · exact hlen
    · simp only []
      split
      · rw [setCompText_length]
        exact hlen
      · exact add_item_len _ _ _
    · split
      · exact le_trans (List.length_filter_le _ _) hlen
      · split
        · exact le_trans (List.length_filter_le _ _) hlen
        · exact hlen

theorem process_ime_live (s : DisplayState) (ie : ImeEvent)
    (hlive : TargetsLive s) :
    TargetsLive (s.process_ime_event ie) := by
  unfold DisplayState.process_ime_event
  split
  · exact hlive
  · split
    · split
      · exact fun p hp => pruneTargets_live _ _ p hp
      · exact hlive
    · simp only []
      split
      · intro p hp
        have := hlive p hp
        rwa [setCompText_map_id]
      · exact add_item_live _ _ _
    · split
      · exact fun p hp => pruneTargets_live _ _ p hp
      · split
        · exact fun p hp => pruneTargets_live _ _ p hp
        · exact hlive

theorem process_mouse_config (s : DisplayState) (me : MouseEvent) :
    (s.process_mouse_event me).config = s.config := by
  unfold DisplayState.process_mouse_event
  repeat' split
  all_goals first
  | rfl
  | exact add_item_config _ _ _

theorem process_mouse_len (s : DisplayState) (me : MouseEvent)
    (hlen : s.items.length ≤ s.config.display.max_items) :
    (s.process_mouse_event me).items.length ≤ s.config.display.max_items := by
  unfold DisplayState.process_mouse_event
  repeat' split
  all_goals first
  | exact hlen
  | exact add_item_len _ _ _

theorem process_mouse_live (s : DisplayState) (me : MouseEvent)
    (hlive : TargetsLive s) :
    TargetsLive (s.process_mouse_event me) := by
  unfold DisplayState.process_mouse_event
  repeat' split
  all_goals first
  | exact hlive
  | exact add_item_live _ _ _

theorem process_clipboard_config (s : DisplayState) (ce : ClipboardEvent) :
    (s.process_clipboard_event ce).config = s.config := by
  unfold DisplayState.process_clipboard_event
  repeat' split
  all_goals first
  | rfl
  | exact add_item_config _ _ _

theorem process_clipboard_len (s : DisplayState) (ce : ClipboardEvent)
    (hlen : s.items.length ≤ s.config.display.max_items) :
    (s.process_clipboard_event ce).items.length ≤
      s.config.display.max_items := by
  unfold DisplayState.process_clipboard_event
  repeat' split
  all_goals first
  | exact hlen
  | exact add_item_len _ _ _

theorem process_clipboard_live (s : DisplayState) (ce : ClipboardEvent)
    (hlive : TargetsLive s) :
    TargetsLive (s.process_clipboard_event ce) := by
  unfold DisplayState.process_clipboard_event
  repeat' split
  all_goals first
  | exact hlive
  | exact add_item_live _ _ _

theorem process_lock_config (s : DisplayState) (ls : LockStateEvent) :
    (s.process_lock_event ls).config = s.config := by
  unfold DisplayState.process_lock_event
  split
  · rfl
  · exact add_item_config _ _ _

theorem process_lock_len (s : DisplayState) (ls : LockStateEvent)
    (hlen : s.items.length ≤ s.config.display.max_items) :
    (s.process_lock_event ls).items.length ≤ s.config.display.max_items := by
  unfold DisplayState.process_lock_event
  split
  · exact hlen
  · exact add_item_len _ _ _

theorem process_lock_live (s : DisplayState) (ls : LockStateEvent)
    (hlive : TargetsLive s) :
    TargetsLive (s.process_lock_event ls) := by
  unfold DisplayState.process_lock_event
  split
  · exact hlive
  · exact add_item_live _ _ _

theorem tick_config (s : DisplayState) (now : Nat) :
    (s.tick now).config = s.config := rfl

theorem tick_len (s : DisplayState) (now : Nat)
    (hlen : s.items.length ≤ s.config.display.max_items) :
    (s.tick now).items.length ≤ s.config.display.max_items := by
  show ((s.items.map (tickItem s.config now)).filter _).length ≤ _
  calc ((s.items.map (tickItem s.config now)).filter _).length
      ≤ (s.items.map (tickItem s.config now)).length := List.length_filter_le _ _
    _ = s.items.length := List.length_map _ _
    _ ≤ s.config.display.max_items := hlen

theorem tick_live (s : DisplayState) (now : Nat) :
    TargetsLive (s.tick now) := fun p hp => pruneTargets_live _ _ p hp

theorem clear_live (s : DisplayState) : TargetsLive s.clear := by
  intro p hp
  exact absurd hp (List.not_mem_nil p)

theorem update_config_live (s : DisplayState) (c : AppConfig) :
    TargetsLive (s.update_config c) := fun p hp => pruneTargets_live _ _ p hp

theorem pkda_config (s : DisplayState) (ke : KeyEvent) (lb : String)
    (now : Nat) :
    ((s.process_key_down_add ke lb now).1).config = s.config := by
  unfold DisplayState.process_key_down_add
  simp only []
  split
  · split
    · split
      · rename_i tgt sB heq
        have h2 := congrArg Prod.snd heq
        simp only at h2
        rw [← h2]
        exact update_repeat_count_config _ _ _ _
      · exact add_keystroke_config _ _ _ _ _
    · exact add_keystroke_config _ _ _ _ _
  · exact add_keystroke_config _ _ _ _ _

theorem pkda_len (s : DisplayState) (ke : KeyEvent) (lb : String) (now : Nat)
    (hlen : s.items.length ≤ s.config.display.max_items) :
    ((s.process_key_down_add ke lb now).1).items.length ≤
      s.config.display.max_items := by
  unfold DisplayState.process_key_down_add
  simp only []
  split
  · split
    · split
      · rename_i tgt sB heq
        have h2 := congrArg Prod.snd heq
        simp only at h2
        rw [← h2]
        have hids := update_repeat_count_map_id
          ({ s with repeat_tracker := (s.repeat_tracker.track ke.key ke.modifiers now).2 })
          (s.repeat_tracker.track ke.key ke.modifiers now).1 now
          (s.config.behavior.key_transition_mode = KeyTransitionMode.SingleCell)
        have hl := congrArg List.length hids
        simp only [List.length_map] at hl
        rw [hl]
        exact hlen
      · exact add_keystroke_len _ _ _ _ _ hlen
    · exact add_keystroke_len _ _ _ _ _ hlen
  · exact add_keystroke_len _ _ _ _ _ hlen

theorem pkda_live (s : DisplayState) (ke : KeyEvent) (lb : String) (now : Nat)
    (hlive : TargetsLive s) (hmax : 1 ≤ s.config.display.max_items) :
    TargetsLive ((s.process_key_down_add ke lb now).1) ∧
      ((s.process_key_down_add ke lb now).2).item_id ∈
        ((s.process_key_down_add ke lb now).1).items.map DisplayItem.id := by
  unfold DisplayState.process_key_down_add
  simp only []
  split
  · split
    · split
      · rename_i tgt sB heq
        have h2 := congrArg Prod.snd heq
        simp only at h2
        have h1 := congrArg Prod.fst heq
        simp only at h1
        have hids := update_repeat_count_map_id
          ({ s with repeat_tracker := (s.repeat_tracker.track ke.key ke.modifiers now).2 })
          (s.repeat_tracker.track ke.key ke.modifiers now).1 now
          (s.config.behavior.key_transition_mode = KeyTransitionMode.SingleCell)
        rw [h2] at hids
        constructor
        · intro p hp
          rw [hids]
          have hpm : p ∈ s.active_presses := by
            have hpr := update_repeat_count_presses
              ({ s with repeat_tracker := (s.repeat_tracker.track ke.key ke.modifiers now).2 })
              (s.repeat_tracker.track ke.key ke.modifiers now).1 now
              (s.config.behavior.key_transition_mode = KeyTransitionMode.SingleCell)
            rw [h2] at hpr
            rw [hpr] at hp
            exact hp
          exact hlive p hpm
        · have := update_repeat_count_target
            ({ s with repeat_tracker := (s.repeat_tracker.track ke.key ke.modifiers now).2 })
            (s.repeat_tracker.track ke.key ke.modifiers now).1 now
            (s.config.behavior.key_transition_mode = KeyTransitionMode.SingleCell)
            tgt (by rw [heq])
          rw [hids]
          exact this
      · exact add_keystroke_live _ _ _ _ _ hlive hmax
    · exact add_keystroke_live _ _ _ _ _ hlive hmax
  · exact add_keystroke_live _ _ _ _ _ hlive hmax

theorem processKey_config (s : DisplayState) (ke : KeyEvent) :
    (s.process_key_event ke).config = s.config := by
  unfold DisplayState.process_key_event
  simp only []
  split
  · rfl
  · split
    · rename_i s1 heq
      have h2 := congrArg Prod.snd heq
      simp only at h2
      rw [← h2]
      exact toggle_config s ke
    · split
      · rename_i s1 heq
        have h2 := congrArg Prod.snd heq
        simp only at h2
        rw [← h2]
        exact fallback_config s ke
      · split
        · rfl
        · split
          · split
            · rfl
            · split
              · rfl
              · split
                · exact pkda_config _ _ _ _
                · exact pkda_config _ _ _ _
          · split
            · rfl
            · split
              · exact apply_key_up_config _ _ _
              · exact add_keystroke_config _ _ _ _ _

theorem processKey_len (s : DisplayState) (ke : KeyEvent)
    (hlen : s.items.length ≤ s.config.display.max_items) :
    (s.process_key_event ke).items.length ≤ s.config.display.max_items := by
  unfold DisplayState.process_key_event
  simp only []
  split
  · exact hlen
  · split
    · rename_i s1 heq
      have h2 := congrArg Prod.snd heq
      simp only at h2
      rw [← h2]
      exact toggle_len s ke hlen
    · split
      · rename_i s1 heq
        have h2 := congrArg Prod.snd heq
        simp only at h2
        rw [← h2]
        exact fallback_len s ke hlen
      · split
        · exact hlen
        · split
          · split
            · exact hlen
            · split
              · exact add_item_len _ _ _
              · split
                · exact pkda_len _ _ _ _ hlen
                · exact pkda_len _ _ _ _ hlen
          · split
            · exact hlen
            · split
              · rw [apply_key_up_len]
                exact hlen
              · exact add_keystroke_len _ _ _ _ _ hlen

theorem processKey_live (s : DisplayState) (ke : KeyEvent)
    (hlive : TargetsLive s) (hmax : 1 ≤ s.config.display.max_items) :
    TargetsLive (s.process_key_event ke) := by
  unfold DisplayState.process_key_event
  simp only []
  split
  · exact hlive
  · split
    · rename_i s1 heq
      have h2 := congrArg Prod.snd heq
      simp only at h2
      rw [← h2]
      exact toggle_live s ke hlive
    · split
      · rename_i s1 heq
        have h2 := congrArg Prod.snd heq
        simp only at h2
        rw [← h2]
        exact fallback_live s ke hlive
      · split
        · exact hlive
        · split
          · split
            · exact hlive
            · split
              · intro p hp
                have hsub := pressErase_subset _ _ p hp
                exact add_item_live _ _ _ p hsub
              · split
                · intro p hp
                  rcases pressInsert_mem _ _ _ p hp with hnew | hold
                  · subst hnew
                    exact (pkda_live s ke _ ke.timestamp hlive hmax).2
                  · exact (pkda_live s ke _ ke.timestamp hlive hmax).1 p hold
                · exact (pkda_live s ke _ ke.timestamp hlive hmax).1
          · split
            · exact hlive
            · split
              · exact apply_key_up_live _ _ _ hlive
              · refine (add_keystroke_live _ _ _ _ _ ?_ ?_).1
                · intro p hp
                  have hsub := pressErase_subset _ _ p hp
                  exact hlive p hsub
                · exact hmax

theorem processEvent_config (s : DisplayState) (e : InputEvent) :
    (s.process_event e).config = s.config := by
  cases e with
  | Key ke => exact processKey_config s ke
  | Mouse me => exact process_mouse_config s me
  | Ime ie => exact process_ime_config s ie
  | Clipboard ce => exact process_clipboard_config s ce
  | LockState ls => exact process_lock_config s ls
  | DpiChanged dpi r => rfl
  | ConfigChanged => rfl

theorem processEvent_len (s : DisplayState) (e : InputEvent)
    (hlen : s.items.length ≤ s.config.display.max_items) :
    (s.process_event e).items.length ≤ s.config.display.max_items := by
  cases e with
  | Key ke => exact processKey_len s ke hlen
  | Mouse me => exact process_mouse_len s me hlen
  | Ime ie => exact process_ime_len s ie hlen
  | Clipboard ce => exact process_clipboard_len s ce hlen
  | LockState ls => exact process_lock_len s ls hlen
  | DpiChanged dpi r => exact hlen
  | ConfigChanged => exact hlen

theorem processEvent_live (s : DisplayState) (e : InputEvent)
    (hlive : TargetsLive s) (hmax : 1 ≤ s.config.display.max_items) :
    TargetsLive (s.process_event e) := by
  cases e with
  | Key ke => exact processKey_live s ke hlive hmax
  | Mouse me => exact process_mouse_live s me hlive
  | Ime ie => exact process_ime_live s ie hlive
  | Clipboard ce => exact process_clipboard_live s ce hlive
  | LockState ls => exact process_lock_live s ls hlive
  | DpiChanged dpi r => exact hlive
  | ConfigChanged => exact hlive

theorem runOps_fixed_config (ops : List EngineOp)
    (hops : ∀ op ∈ ops, op.fixedConfig) (s : DisplayState) :
    (runOps s ops).config = s.config := by
  induction ops generalizing s with
  | nil => rfl
  | cons op rest ih =>
    have hop := hops op (List.mem_cons_self op rest)
    have hrest : ∀ op2 ∈ rest, op2.fixedConfig := fun op2 h2 =>
      hops op2 (List.mem_cons_of_mem op h2)
    show (runOps (applyOp s op) rest).config = s.config
    rw [ih hrest (applyOp s op)]
    cases op with
    | event e => exact processEvent_config s e
    | tickOp now => exact tick_config s now
    | clearOp => exact absurd hop id
    | updateConfig c => exact absurd hop id

theorem runOps_len (ops : List EngineOp)
    (hops : ∀ op ∈ ops, op.fixedConfig) (s : DisplayState)
    (hlen : s.items.length ≤ s.config.display.max_items) :
    (runOps s ops).items.length ≤ (runOps s ops).config.display.max_items := by
  induction ops generalizing s with
  | nil => exact hlen
  | cons op rest ih =>
    have hop := hops op (List.mem_cons_self op rest)
    have hrest : ∀ op2 ∈ rest, op2.fixedConfig := fun op2 h2 =>
      hops op2 (List.mem_cons_of_mem op h2)
    show (runOps (applyOp s op) rest).items.length ≤ _
    refine ih hrest (applyOp s op) ?_
    cases op with
    | event e =>
      show (s.process_event e).items.length ≤ (s.process_event e).config.display.max_items
      rw [processEvent_config]
      exact processEvent_len s e hlen
    | tickOp now => exact tick_len s now hlen
    | clearOp => exact absurd hop id
    | updateConfig c => exact absurd hop id

theorem runOps_live (ops : List EngineOp)
    (hops : ∀ op ∈ ops, op.validConfig) (s : DisplayState)
    (hlive : TargetsLive s) (hmax : 1 ≤ s.config.display.max_items) :
    TargetsLive (runOps s ops) := by
  induction ops generalizing s with
  | nil => exact hlive
  | cons op rest ih =>
    have hop := hops op (List.mem_cons_self op rest)
    have hrest : ∀ op2 ∈ rest, op2.validConfig := fun op2 h2 =>
      hops op2 (List.mem_cons_of_mem op h2)
    show TargetsLive (runOps (applyOp s op) rest)
    cases op with
    | event e =>
      refine ih hrest _ (processEvent_live s e hlive hmax) ?_
      show 1 ≤ (s.process_event e).config.display.max_items
      rw [processEvent_config]
      exact hmax
    | tickOp now => exact ih hrest _ (tick_live s now) hmax
    | clearOp => exact ih hrest _ (clear_live s) hmax
    | updateConfig c => exact ih hrest _ (update_config_live s c) hop

/-! ## Concrete fixtures used by witnesses and counterexamples -/

/-- A concrete engine configuration: single-cell transitions, repeat count
shown, numpad distinguished, 500 ms repeat timeout, 300 ms group timeout,
groups of at most 3, 5 items, 2000 ms display, 300 ms linear fade. -/
def testConfig : AppConfig :=
  { display := { max_items := 5, display_duration_ms := 2000, fade_duration_ms := 300 }
    behavior :=
      { key_transition_mode := KeyTransitionMode.SingleCell
        show_repeat_count := true
        distinguish_numpad := true
        show_ime_composition := true
        show_clipboard := true
        clipboard_max_chars := 50
        show_lock_indicators := true
        repeat_timeout_ms := 500
        group_timeout_ms := 300
        max_group_size := 3
        ignored_keys := [] }
    shortcuts := []
    animation := { fade_out_curve := FadeOutCurve.Linear } }

/-- `testConfig` with a smaller item cap, used as a hot-reload target. -/
def testConfigSmall : AppConfig :=
  { testConfig with
      display := { testConfig.display with max_items := 3 } }

/-- A key-down event with no modifiers. -/
def keyDownEvent (vk scan t : Nat) : KeyEvent :=
  ⟨⟨vk⟩, KeyAction.Down, defaultModifiers, false, scan, t⟩

/-- A key-up event with no modifiers. -/
def keyUpEvent (vk scan t : Nat) : KeyEvent :=
  ⟨⟨vk⟩, KeyAction.Up, defaultModifiers, false, scan, t⟩

/-! ## C1 -/

/-- C1: for every sequence of `process_event` and `tick` calls under a
fixed configuration with `max_items ≥ 1`, the number of items reported by
`active_items` immediately after each call (equivalently, after running any
such sequence from a fresh engine) is at most `max_items`. -/
theorem C1_bounding (cfg : AppConfig) (now0 : Nat) (ops : List EngineOp)
    (hmax : 1 ≤ cfg.display.max_items)
    (hops : ∀ op ∈ ops, op.fixedConfig) :
    ((runOps (DisplayState.new cfg now0) ops).active_items).length ≤
      cfg.display.max_items := by
  have h := runOps_len ops hops (DisplayState.new cfg now0) (Nat.zero_le _)
  rwa [runOps_fixed_config ops hops] at h

/-- A concrete operation sequence driving seven mouse clicks and a tick
through the engine (seven adds against a cap of five). -/
def c1ops : List EngineOp :=
  [EngineOp.event (.Mouse ⟨.Left, .Down, (0, 0), 0⟩),
   EngineOp.event (.Mouse ⟨.Left, .Down, (0, 0), 10⟩),
   EngineOp.event (.Mouse ⟨.Right, .Down, (0, 0), 20⟩),
   EngineOp.event (.Mouse ⟨.Left, .Down, (0, 0), 30⟩),
   EngineOp.event (.Mouse ⟨.Middle, .Down, (0, 0), 40⟩),
   EngineOp.event (.Mouse ⟨.Left, .Down, (0, 0), 50⟩),
   EngineOp.event (.Mouse ⟨.Left, .Down, (0, 0), 60⟩),
   EngineOp.tickOp 100]

/-- Witness for C1 at the concrete configuration and operation list. -/
theorem C1_bounding_witness :
    1 ≤ testConfig.display.max_items ∧
    ((runOps (DisplayState.new testConfig 0) c1ops).active_items).length ≤
      testConfig.display.max_items :=
  ⟨by decide,
   C1_bounding testConfig 0 c1ops (by decide)
     (by intro op hop; fin_cases hop <;> trivial)⟩

/-! ## C4 -/

/-- C4: after every public operation of the engine (`process_event` of any
event, `tick`, `clear`, `update_config`) starting from a fresh engine with
a validated configuration (`max_items ≥ 1`, the invariant `config.rs`
enforces before a snapshot reaches the core) and feeding only validated
configurations to `update_config`, every stored `PressTarget` references an
item currently present in the item list. -/
theorem C4_press_targets (cfg : AppConfig) (now0 : Nat) (ops : List EngineOp)
    (hmax : 1 ≤ cfg.display.max_items)
    (hops : ∀ op ∈ ops, op.validConfig) :
    ∀ p ∈ (runOps (DisplayState.new cfg now0) ops).active_presses,
      ∃ it ∈ (runOps (DisplayState.new cfg now0) ops).items,
        it.id = p.2.item_id := by
  have h := runOps_live ops hops (DisplayState.new cfg now0)
    (fun p hp => absurd hp (List.not_mem_nil p)) hmax
  intro p hp
  rcases List.mem_map.mp (h p hp) with ⟨it, hit, hid⟩
  exact ⟨it, hit, hid⟩

/-- A concrete operation sequence with a tracked press, a config reload and
a tick. -/
def c4ops : List EngineOp :=
  [EngineOp.event (.Key (keyDownEvent 0x41 0x1E 0)),
   EngineOp.updateConfig testConfigSmall,
   EngineOp.tickOp 50,
   EngineOp.event (.Key (keyUpEvent 0x41 0x1E 60))]

/-- Witness for C4 at the concrete configuration and operation list. -/
theorem C4_press_targets_witness :
    1 ≤ testConfig.display.max_items ∧
    (∀ p ∈ (runOps (DisplayState.new testConfig 0) c4ops).active_presses,
      ∃ it ∈ (runOps (DisplayState.new testConfig 0) c4ops).items,
        it.id = p.2.item_id) :=
  ⟨by decide,
   C4_press_targets testConfig 0 c4ops (by decide)
     (by
       intro op hop
       fin_cases hop <;>
         first
         | trivial
         | exact (by decide : 1 ≤ testConfigSmall.display.max_items))⟩

/-! ## C2 -/

/-- `handle_ime_toggle_key` never mutates the state on a key-up event. -/
theorem toggle_snd_up (s : DisplayState) (ke : KeyEvent)
    (hup : ke.action = KeyAction.Up) :
    (s.handle_ime_toggle_key ke).2 = s := by
  unfold DisplayState.handle_ime_toggle_key
  simp only []
  split
  · rfl
  · split
    · rename_i hdown
      rw [hup] at hdown
      exact absurd hdown (by decide)
    · rfl

/-- `handle_ime_fallback_key` never mutates the state on a key-up event. -/
theorem fallback_snd_up (s : DisplayState) (ke : KeyEvent)
    (hup : ke.action = KeyAction.Up) :
    (s.handle_ime_fallback_key ke).2 = s := by
  unfold DisplayState.handle_ime_fallback_key
  rw [hup]
  simp only []
  split
  · rfl
  · rfl

/-- The engine state after enabling IME fallback with the dedicated
`VK_IME_ON` (0x16) key from a fresh engine. -/
def c2State : DisplayState :=
  (DisplayState.new testConfig 0).process_key_event (keyDownEvent 0x16 1 0)

/-- C2 counterexample: at a concrete reachable state with the
fallback-enabled flag set, `clear()` leaves that flag set, contradicting
the claim that all IME-fallback state including the fallback-enabled flag
is reset. -/
theorem C2_counterexample :
    c2State.ime_fallback_enabled = true ∧
    (DisplayState.clear c2State).ime_fallback_enabled = true := by decide

/-- C2 (amended): after `clear()` the item list, the press-target map, the
fallback romaji buffer and both composing flags are reset (the
fallback-enabled flag is left unchanged by the code), and in `SingleCell`
mode a subsequent key Up event for any physical key leaves the item list
empty. -/
theorem C2_clear (s : DisplayState) (ke : KeyEvent)
    (hmode : s.config.behavior.key_transition_mode = KeyTransitionMode.SingleCell)
    (hup : ke.action = KeyAction.Up) :
    s.clear.active_items = [] ∧ s.clear.active_presses = [] ∧
    s.clear.ime_fallback_romaji = "" ∧ s.clear.ime_composing = false ∧
    s.clear.ime_native_composing = false ∧
    (s.clear.process_key_event ke).active_items = [] := by
  refine ⟨rfl, rfl, rfl, rfl, rfl, ?_⟩
  show (s.clear.process_key_event ke).items = []
  unfold DisplayState.process_key_event
  simp only []
  split
  · rfl
  · split
    · rename_i s1 heq
      have h2 := congrArg Prod.snd heq
      simp only at h2
      rw [toggle_snd_up s.clear ke hup] at h2
      rw [← h2]
      rfl
    · split
      · rename_i s1 heq
        have h2 := congrArg Prod.snd heq
        simp only at h2
        rw [fallback_snd_up s.clear ke hup] at h2
        rw [← h2]
        rfl
      · split
        · rfl
        · split
          · rename_i hact
            rw [hup] at hact
            exact absurd hact (by decide)
          · split
            · rfl
            · split
              · rfl
              · rename_i hmode2
                exact absurd (hmode.symm.trans hmode2) (by decide)

/-- Witness for the amended C2 at the concrete state and a concrete Up
event. -/
theorem C2_clear_witness :
    c2State.clear.active_items = [] ∧ c2State.clear.active_presses = [] ∧
    c2State.clear.ime_fallback_romaji = "" ∧
    c2State.clear.ime_composing = false ∧
    c2State.clear.ime_native_composing = false ∧
    (c2State.clear.process_key_event (keyUpEvent 0x41 0x1E 5)).active_items = [] :=
  C2_clear c2State (keyUpEvent 0x41 0x1E 5) (by decide) (by decide)

/-! ## C3 -/

/-- Stated from the claim's words: `track` returns 1 if the (key, modifiers)
pair differs from the previous call or the elapsed time since the previous
call strictly exceeds `repeat_timeout`, and otherwise the previous count
plus one. -/
def track_spec_claimed (t : RepeatTracker) (key : KeyCode) (mods : Modifiers)
    (now : Nat) : Nat :=
  if some key ≠ t.last_key ∨ mods ≠ t.last_modifiers ∨
      t.timeout < now - t.last_time then 1
  else t.count + 1

/-- The amended contract: the reset also fires when the elapsed time equals
`repeat_timeout` (the code increments only while `elapsed < timeout`). -/
def track_spec_amended (t : RepeatTracker) (key : KeyCode) (mods : Modifiers)
    (now : Nat) : Nat :=
  if some key ≠ t.last_key ∨ mods ≠ t.last_modifiers ∨
      t.timeout ≤ now - t.last_time then 1
  else t.count + 1

theorem track_eq_amended (t : RepeatTracker) (key : KeyCode)
    (mods : Modifiers) (now : Nat) :
    (t.track key mods now).1 = track_spec_amended t key mods now := by
  unfold RepeatTracker.track track_spec_amended
  simp only []
  split_ifs with hC hD
  · exfalso
    obtain ⟨h1, h2, h3⟩ := hC
    rcases hD with h | h | h
    · exact h h1
    · exact h h2
    · omega
  · rfl
  · rfl
  · exfalso
    rename_i hD
    apply hC
    refine ⟨?_, ?_, ?_⟩
    · by_contra hne
      exact hD (Or.inl hne)
    · by_contra hne
      exact hD (Or.inr (Or.inl hne))
    · by_contra hlt
      exact hD (Or.inr (Or.inr (by omega)))

/-- The tracker state reached by two presses of `A` 100 ms apart with a
500 ms timeout (the state of `RepeatTracker::new` followed by two `track`
calls). -/
def c3Tracker : RepeatTracker :=
  ((RepeatTracker.track ⟨none, defaultModifiers, 0, 0, 500⟩
      ⟨0x41⟩ defaultModifiers 0).2.track ⟨0x41⟩ defaultModifiers 100).2

/-- C3 counterexample: at elapsed time exactly equal to `repeat_timeout`
(elapsed 500 = timeout 500) the code resets the count to 1, while the
claim's contract ("differs ... or ... exceeds repeat_timeout") prescribes
the previous count plus one (here 3). -/
theorem C3_counterexample :
    (c3Tracker.track ⟨0x41⟩ defaultModifiers 600).1 = 1 ∧
    track_spec_claimed c3Tracker ⟨0x41⟩ defaultModifiers 600 = 3 ∧
    (c3Tracker.track ⟨0x41⟩ defaultModifiers 600).1 ≠
      track_spec_claimed c3Tracker ⟨0x41⟩ defaultModifiers 600 := by decide

/-- The engine state after three Downs of `A` at 0, 100 and 200 ms. -/
def c3StateFast : DisplayState :=
  (((DisplayState.new testConfig 0).process_key_event
      (keyDownEvent 0x41 0x1E 0)).process_key_event
      (keyDownEvent 0x41 0x1E 100)).process_key_event
      (keyDownEvent 0x41 0x1E 200)

/-- The engine state after Downs of `A` at 0 and 100 ms and a third Down
601 ms after the second (beyond the 500 ms repeat timeout). -/
def c3StateSlow : DisplayState :=
  (((DisplayState.new testConfig 0).process_key_event
      (keyDownEvent 0x41 0x1E 0)).process_key_event
      (keyDownEvent 0x41 0x1E 100)).process_key_event
      (keyDownEvent 0x41 0x1E 701)

/-- C3 (amended): `track(key, modifiers, now)` returns 1 if the pair
differs from the previous call or the elapsed time since the previous call
is at least `repeat_timeout` (the code resets already at equality), and
otherwise the previous count plus one; with `show_repeat_count` enabled,
three Downs of the same key within the timeout leave a single displayed
item with `repeat_count = 3`, while a third press whose elapsed time
exceeds the timeout starts a new item with count 1. -/
theorem C3_repeat :
    (∀ (t : RepeatTracker) (key : KeyCode) (mods : Modifiers) (now : Nat),
      (t.track key mods now).1 = track_spec_amended t key mods now) ∧
    c3StateFast.active_items =
      [⟨0, DisplayItemKind.KeyStroke "A" defaultModifiers KeyAction.Down 3,
        200, 1, DisplayPhase.Active⟩] ∧
    c3StateSlow.active_items =
      [⟨0, DisplayItemKind.KeyStroke "A" defaultModifiers KeyAction.Down 2,
        100, 1, DisplayPhase.Active⟩,
       ⟨1, DisplayItemKind.KeyStroke "A" defaultModifiers KeyAction.Down 1,
        701, 1, DisplayPhase.Active⟩] :=
  ⟨track_eq_amended, by decide, by decide⟩

/-! ## C9 -/

/-- C9: a `CompositionEnd` IME event tears down the live `ImeComposition`
item when the native path produced it (native-composing flag set): the
composition items are removed and the composing flags and fallback buffer
reset; and when a fallback-driven composition is active instead
(native-composing flag false, fallback-enabled flag true) the whole state
— in particular the item list, the fallback romaji buffer and the
press-target map — is left unchanged. -/
theorem C9_composition_end (s : DisplayState) (result : String) (ts : Nat) :
    (s.config.behavior.show_ime_composition = true →
      s.ime_native_composing = true →
      (s.process_ime_event ⟨ImeEventKind.CompositionEnd result, ts⟩).items =
        (s.items.filter fun it => !(isImeCompositionKind it.kind)) ∧
      (s.process_ime_event ⟨ImeEventKind.CompositionEnd result, ts⟩).ime_composing = false ∧
      (s.process_ime_event ⟨ImeEventKind.CompositionEnd result, ts⟩).ime_native_composing = false ∧
      (s.process_ime_event ⟨ImeEventKind.CompositionEnd result, ts⟩).ime_fallback_romaji = "") ∧
    (s.ime_native_composing = false → s.ime_fallback_enabled = true →
      s.process_ime_event ⟨ImeEventKind.CompositionEnd result, ts⟩ = s) := by
  constructor
  · intro hshow hnat
    simp [DisplayState.process_ime_event, hshow, hnat]
  · intro hnat hfb
    simp [DisplayState.process_ime_event, hnat, hfb]

/-- The engine state with a fallback-driven composition active: fallback
enabled via `VK_IME_ON`, then the letters `n`, `i` typed (buffer "ni",
composition item "に"). -/
def c9State : DisplayState :=
  ((c2State.process_key_event (keyDownEvent 0x4E 0x31 5)).process_key_event
      (keyDownEvent 0x49 0x17 10))

/-- Witness for C9: the native teardown at a state with a native
composition, and the fallback no-op at the concrete fallback state. -/
theorem C9_composition_end_witness :
    ((c9State.process_ime_event
        ⟨ImeEventKind.CompositionUpdate "かな", 12⟩).process_ime_event
        ⟨ImeEventKind.CompositionEnd "", 15⟩).items =
      (((c9State.process_ime_event
          ⟨ImeEventKind.CompositionUpdate "かな", 12⟩).items.filter
            fun it => !(isImeCompositionKind it.kind))) ∧
    c9State.process_ime_event ⟨ImeEventKind.CompositionEnd "", 15⟩ = c9State :=
  ⟨(C9_composition_end
      (c9State.process_ime_event ⟨ImeEventKind.CompositionUpdate "かな", 12⟩)
      "" 15).1 (by decide) (by decide) |>.1,
   (C9_composition_end c9State "" 15).2 (by decide) (by decide)⟩

/-! ## C10 -/

/-- C10: in fallback IME mode, whenever the accumulated romaji buffer
transliterates to the empty string, applying the fallback text removes any
live `ImeComposition` item and resets both composing flags while leaving
the fallback buffer itself unchanged. -/
theorem C10_fallback_empty (s : DisplayState) (now : Nat)
    (hempty : romaji_to_hiragana s.ime_fallback_romaji = "") :
    (s.apply_ime_fallback_text now).items =
      (s.items.filter fun it => !(isImeCompositionKind it.kind)) ∧
    (s.apply_ime_fallback_text now).ime_composing = false ∧
    (s.apply_ime_fallback_text now).ime_native_composing = false ∧
    (s.apply_ime_fallback_text now).ime_fallback_romaji =
      s.ime_fallback_romaji := by
  unfold DisplayState.apply_ime_fallback_text
  simp only []
  rw [if_pos hempty]
  exact ⟨rfl, rfl, rfl, rfl⟩

/-- The intermediate state inside the Backspace branch of
`handle_ime_fallback_key` at `c9State`: the buffer popped from "ni" to
"n" with the composition item still live. -/
def c10State : DisplayState :=
  { c9State with ime_fallback_romaji := "n" }

/-- Witness for C10 at the concrete pending-only buffer "n". -/
theorem C10_fallback_empty_witness :
    romaji_to_hiragana c10State.ime_fallback_romaji = "" ∧
    ((c10State.apply_ime_fallback_text 20).items =
      (c10State.items.filter fun it => !(isImeCompositionKind it.kind)) ∧
     (c10State.apply_ime_fallback_text 20).ime_composing = false ∧
     (c10State.apply_ime_fallback_text 20).ime_native_composing = false ∧
     (c10State.apply_ime_fallback_text 20).ime_fallback_romaji =
       c10State.ime_fallback_romaji) :=
  ⟨by decide, C10_fallback_empty c10State 20 (by decide)⟩

/-! ## C5 -/

theorem clampQ_mono {x y : ℚ} (h : x ≤ y) : clampQ x 0 1 ≤ clampQ y 0 1 := by
  unfold clampQ
  split_ifs <;> linarith

theorem clampQ_le_one (x : ℚ) : clampQ x 0 1 ≤ 1 := by
  unfold clampQ
  split_ifs <;> linarith

theorem clampQ_eq_one {x : ℚ} (h : 1 ≤ x) : clampQ x 0 1 = 1 := by
  unfold clampQ
  split_ifs <;> linarith

theorem fade_progress_mono (cfg : AppConfig) (it : DisplayItem)
    {now1 now2 : Nat} (h : now1 ≤ now2)
    (hfd : 0 < cfg.display.fade_duration_ms) :
    fade_progress cfg now1 it ≤ fade_progress cfg now2 it := by
  unfold fade_progress
  simp only []
  apply clampQ_mono
  have hfd2 : (0 : ℚ) < (cfg.display.fade_duration_ms : ℚ) := by
    exact_mod_cast hfd
  rw [div_le_div_iff_of_pos_right hfd2]
  have : now1 - (it.created_at + cfg.display.display_duration_ms) ≤
      now2 - (it.created_at + cfg.display.display_duration_ms) := by omega
  exact_mod_cast this

theorem fade_progress_le_one (cfg : AppConfig) (now : Nat) (it : DisplayItem) :
    fade_progress cfg now it ≤ 1 := clampQ_le_one _

theorem fade_progress_eq_one (cfg : AppConfig) (it : DisplayItem) {now : Nat}
    (hfd : 0 < cfg.display.fade_duration_ms)
    (hnow : it.created_at + cfg.display.display_duration_ms +
      cfg.display.fade_duration_ms ≤ now) :
    fade_progress cfg now it = 1 := by
  unfold fade_progress
  simp only []
  apply clampQ_eq_one
  have hfd2 : (0 : ℚ) < (cfg.display.fade_duration_ms : ℚ) := by
    exact_mod_cast hfd
  rw [le_div_iff₀ hfd2, one_mul]
  have : cfg.display.fade_duration_ms ≤
      now - (it.created_at + cfg.display.display_duration_ms) := by omega
  exact_mod_cast this

theorem fade_opacity_antitone (cfg : AppConfig) (it : DisplayItem)
    {now1 now2 : Nat} (h : now1 ≤ now2)
    (hfd : 0 < cfg.display.fade_duration_ms) :
    fade_opacity cfg now2 it ≤ fade_opacity cfg now1 it := by
  unfold fade_opacity
  simp only []
  have hp := fade_progress_mono cfg it h hfd
  have hle1 := fade_progress_le_one cfg now2 it
  cases cfg.animation.fade_out_curve with
  | Linear =>
    simp only []
    exact max_le_max (by linarith) le_rfl
  | EaseOut =>
    simp only []
    apply max_le_max _ le_rfl
    have h2 : 0 ≤ 1 - fade_progress cfg now2 it := by linarith
    have h12 : 1 - fade_progress cfg now2 it ≤ 1 - fade_progress cfg now1 it := by
      linarith
    exact mul_le_mul h12 h12 h2 (by linarith)

theorem fade_opacity_zero (cfg : AppConfig) (it : DisplayItem) {now : Nat}
    (hfd : 0 < cfg.display.fade_duration_ms)
    (hnow : it.created_at + cfg.display.display_duration_ms +
      cfg.display.fade_duration_ms ≤ now) :
    fade_opacity cfg now it = 0 := by
  unfold fade_opacity
  simp only [fade_progress_eq_one cfg it hfd hnow]
  cases cfg.animation.fade_out_curve <;> simp

theorem tickItem_id (cfg : AppConfig) (now : Nat) (it : DisplayItem) :
    (tickItem cfg now it).id = it.id := by
  unfold tickItem
  split
  · split
    · rfl
    · rfl
  · simp only []
    split
    · rfl
    · rfl
  · rfl

theorem tickItem_opacity_fading (cfg : AppConfig) (now : Nat)
    (it : DisplayItem) (hph : it.phase = DisplayPhase.FadingOut) :
    (tickItem cfg now it).opacity = fade_opacity cfg now it := by
  unfold tickItem
  rw [hph]
  simp only []
  split
  · rfl
  · rfl

theorem tickItem_expired (cfg : AppConfig) (now : Nat) (it : DisplayItem)
    (hph : it.phase = DisplayPhase.FadingOut)
    (hop : fade_opacity cfg now it ≤ 0) :
    (tickItem cfg now it).phase = DisplayPhase.Expired := by
  unfold tickItem
  rw [hph]
  simp only []
  split
  · rfl
  · rename_i hneg
    exact absurd hop hneg

/-- C5: for an item in `FadingOut` phase with positive display and fade
durations, the opacity computed by `tick` is non-increasing in `now` (under
both curves), is exactly 0 once `now` reaches
`created_at + display_duration + fade_duration`, and the item (identified
by its id, unique in the list) is removed from `active_items` by any tick
at or after that instant while it is still present and fading. -/
theorem C5_fade (cfg : AppConfig) (it : DisplayItem) (s : DisplayState)
    (now1 now2 now : Nat)
    (hdd : 0 < cfg.display.display_duration_ms)
    (hfd : 0 < cfg.display.fade_duration_ms)
    (hph : it.phase = DisplayPhase.FadingOut) :
    (now1 ≤ now2 →
      (tickItem cfg now2 it).opacity ≤ (tickItem cfg now1 it).opacity) ∧
    (it.created_at + cfg.display.display_duration_ms +
        cfg.display.fade_duration_ms ≤ now →
      (tickItem cfg now it).opacity = 0) ∧
    (it.created_at + cfg.display.display_duration_ms +
        cfg.display.fade_duration_ms ≤ now →
      s.config = cfg → it ∈ s.items →
      (∀ j ∈ s.items, j.id = it.id → j = it) →
      ∀ j ∈ (s.tick now).active_items, j.id ≠ it.id) := by
  refine ⟨?_, ?_, ?_⟩
  · intro h
    rw [tickItem_opacity_fading cfg now1 it hph,
      tickItem_opacity_fading cfg now2 it hph]
    exact fade_opacity_antitone cfg it h hfd
  · intro hnow
    rw [tickItem_opacity_fading cfg now it hph]
    exact fade_opacity_zero cfg it hfd hnow
  · intro hnow hcfg hit huniq j hj hid
    have hj2 := List.mem_filter.mp hj
    rcases List.mem_map.mp hj2.1 with ⟨i0, hi0, hji⟩
    have hi0id : i0.id = it.id := by
      rw [← hid, ← hji, tickItem_id]
    have hieq : i0 = it := huniq i0 hi0 hi0id
    subst hieq
    have hexp : (tickItem s.config now i0).phase = DisplayPhase.Expired := by
      rw [hcfg]
      exact tickItem_expired cfg now i0 hph
        (le_of_eq (fade_opacity_zero cfg i0 hfd hnow))
    rw [hji] at hexp
    have := hj2.2
    simp only [decide_eq_true_eq] at this
    exact this hexp

/-- A concrete fading item used by the C5 witness. -/
def c5Item : DisplayItem :=
  ⟨0, DisplayItemKind.KeyStroke "A" defaultModifiers KeyAction.Up 1, 0,
   1, DisplayPhase.FadingOut⟩

/-- A concrete engine state holding the fading item. -/
def c5State : DisplayState :=
  { DisplayState.new testConfig 0 with items := [c5Item] }

/-- Witness for C5 at the concrete configuration (2000 ms display, 300 ms
fade): monotone opacity between ticks at 2100 and 2200 ms, exact zero at
2300 ms, and removal by the tick at 2300 ms. -/
theorem C5_fade_witness :
    ((tickItem testConfig 2200 c5Item).opacity ≤
      (tickItem testConfig 2100 c5Item).opacity) ∧
    (tickItem testConfig 2300 c5Item).opacity = 0 ∧
    (∀ j ∈ (c5State.tick 2300).active_items, j.id ≠ c5Item.id) := by
  have h := C5_fade testConfig c5Item c5State 2100 2200 2300
    (by decide) (by decide) (by decide)
  exact ⟨h.1 (by decide), h.2.1 (by decide),
    h.2.2 (by decide) (by decide) (by decide) (by decide)⟩

/-! ## C6 -/

/-- C6: the `n` disambiguation rules of the romaji transliterator:
`transliterate("n")` is empty (the trailing `n` is pending),
`transliterate("nn")` is "ん", `nya` is matched by the 3-letter table
producing "にゃ" rather than being split, and in the scanning loop an `n`
followed by a consonant other than `n` and `y` emits "ん" and advances one
character. -/
theorem C6_romaji (c : Char) (rest : List Char) (fuel : Nat)
    (hcons : is_romaji_consonant c = true) (hn : c ≠ 'n') (hy : c ≠ 'y') :
    romaji_to_hiragana "n" = "" ∧ romaji_to_hiragana "nn" = "ん" ∧
    romaji_to_hiragana "nya" = "にゃ" ∧ romaji_map_3 "nya" = some "にゃ" ∧
    romajiGo (fuel + 1) ('n' :: c :: rest) =
      "ん" ++ romajiGo fuel (c :: rest) := by
  refine ⟨by decide, by decide, by decide, by decide, ?_⟩
  have hvowel : is_romaji_vowel c = false := by
    unfold is_romaji_consonant at hcons
    rcases Bool.and_eq_true _ _ |>.mp hcons with ⟨-, h2⟩
    simpa using h2
  simp only [romajiGo]
  rw [if_neg (by simp), if_pos ⟨by trivial, Or.inr ⟨hvowel, hy⟩⟩]

/-- Witness for C6 with the consonant `k` and remainder "a". -/
theorem C6_romaji_witness :
    romaji_to_hiragana "n" = "" ∧ romaji_to_hiragana "nn" = "ん" ∧
    romaji_to_hiragana "nya" = "にゃ" ∧ romaji_map_3 "nya" = some "にゃ" ∧
    romajiGo 3 ('n' :: 'k' :: ['a']) = "ん" ++ romajiGo 2 ('k' :: ['a']) :=
  C6_romaji 'k' ['a'] 2 (by decide) (by decide) (by decide)

/-! ## C8 -/

/-- The four states reached by pressing `A`, `B`, `C`, `D` 50 ms apart
under `testConfig` (group timeout 300 ms, max group size 3). -/
def c8State1 : DisplayState :=
  (DisplayState.new testConfig 0).process_key_event (keyDownEvent 0x41 0x1E 0)

def c8State2 : DisplayState :=
  c8State1.process_key_event (keyDownEvent 0x42 0x30 50)

def c8State3 : DisplayState :=
  c8State2.process_key_event (keyDownEvent 0x43 0x2E 100)

def c8State4 : DisplayState :=
  c8State3.process_key_event (keyDownEvent 0x44 0x20 150)

/-- C8: with `group_timeout = 300 ms` and `max_group_size = 3`, pressing
`A`, `B`, `C`, `D` 50 ms apart produces one `KeyStrokeGroup` with entries
`[A, B, C]` plus a standalone item for `D`, and each append (B at 50 ms, C
at 100 ms) resets the group's `created_at` to that keystroke's time. -/
theorem C8_grouping :
    c8State2.active_items =
      [⟨0, DisplayItemKind.KeyStrokeGroup
          [⟨"A", defaultModifiers, KeyAction.Down, 1⟩,
           ⟨"B", defaultModifiers, KeyAction.Down, 1⟩],
        50, 1, DisplayPhase.Active⟩] ∧
    c8State3.active_items =
      [⟨0, DisplayItemKind.KeyStrokeGroup
          [⟨"A", defaultModifiers, KeyAction.Down, 1⟩,
           ⟨"B", defaultModifiers, KeyAction.Down, 1⟩,
           ⟨"C", defaultModifiers, KeyAction.Down, 1⟩],
        100, 1, DisplayPhase.Active⟩] ∧
    c8State4.active_items =
      [⟨0, DisplayItemKind.KeyStrokeGroup
          [⟨"A", defaultModifiers, KeyAction.Down, 1⟩,
           ⟨"B", defaultModifiers, KeyAction.Down, 1⟩,
           ⟨"C", defaultModifiers, KeyAction.Down, 1⟩],
        100, 1, DisplayPhase.Active⟩,
       ⟨1, DisplayItemKind.KeyStroke "D" defaultModifiers KeyAction.Down 1,
        150, 1, DisplayPhase.Active⟩] := by decide

/-! ## C7 -/

/-- `testConfig` with split-cell transitions and grouping disabled
(`group_timeout_ms = 0`). -/
def cfgSplitNoGroup : AppConfig :=
  { testConfig with
      behavior := { testConfig.behavior with
        key_transition_mode := KeyTransitionMode.SplitCells
        group_timeout_ms := 0 } }

/-- `testConfig` with split-cell transitions and the 300 ms group timeout
kept. -/
def cfgSplitGroup : AppConfig :=
  { testConfig with
      behavior := { testConfig.behavior with
        key_transition_mode := KeyTransitionMode.SplitCells } }

/-- The state after Down(`A`) at 0 ms and Up(`A`) at 50 ms in `SplitCells`
mode with the default 300 ms group timeout. -/
def c7SplitState : DisplayState :=
  ((DisplayState.new cfgSplitGroup 0).process_key_event
      (keyDownEvent 0x41 0x1E 0)).process_key_event (keyUpEvent 0x41 0x1E 50)

/-- C7 counterexample: in `SplitCells` mode with grouping active (300 ms
group timeout), Down(`A`) then Up(`A`) 50 ms later produce a single
`KeyStrokeGroup` item holding both strokes, not two distinct keystroke
items. -/
theorem C7_counterexample :
    c7SplitState.active_items.length = 1 ∧
    c7SplitState.active_items =
      [⟨0, DisplayItemKind.KeyStrokeGroup
          [⟨"A", defaultModifiers, KeyAction.Down, 1⟩,
           ⟨"A", defaultModifiers, KeyAction.Up, 1⟩],
        50, 1, DisplayPhase.Active⟩] := by decide

/-- C7 (amended): for a non-modifier key that is not an IME toggle key,
under a configuration that ignores no keys and defines no shortcuts: in
`SingleCell` mode, Down then Up mutate the same item id 0 from action Down
to action Up, refreshing its `created_at`, opacity and phase rather than
adding a row; in `SplitCells` mode the two events produce two distinct
keystroke items provided grouping does not combine them (here
`group_timeout = 0`) — with grouping active they instead become two
entries of one `KeyStrokeGroup` item. -/
theorem C7_press_symmetry (key : KeyCode) (numpad : Bool)
    (scan t1 t2 : Nat)
    (hmod : key.is_modifier = false)
    (hvk : ¬(key.code % 256 = 0x15 ∨ key.code % 256 = 0x16 ∨
      key.code % 256 = 0x19 ∨ key.code % 256 = 0x1A))
    (hscan : scan ≠ 0x29) :
    ((DisplayState.new testConfig 0).process_key_event
        ⟨key, KeyAction.Down, defaultModifiers, numpad, scan, t1⟩).active_items =
      [⟨0, DisplayItemKind.KeyStroke key.label defaultModifiers KeyAction.Down 1,
        t1, 1, DisplayPhase.Active⟩] ∧
    (((DisplayState.new testConfig 0).process_key_event
        ⟨key, KeyAction.Down, defaultModifiers, numpad, scan, t1⟩).process_key_event
        ⟨key, KeyAction.Up, defaultModifiers, numpad, scan, t2⟩).active_items =
      [⟨0, DisplayItemKind.KeyStroke key.label defaultModifiers KeyAction.Up 1,
        t2, 1, DisplayPhase.Active⟩] ∧
    (((DisplayState.new cfgSplitNoGroup 0).process_key_event
        ⟨key, KeyAction.Down, defaultModifiers, numpad, scan, t1⟩).process_key_event
        ⟨key, KeyAction.Up, defaultModifiers, numpad, scan, t2⟩).active_items =
      [⟨0, DisplayItemKind.KeyStroke key.label defaultModifiers KeyAction.Down 1,
        t1, 1, DisplayPhase.Active⟩,
       ⟨1, DisplayItemKind.KeyStroke key.label defaultModifiers KeyAction.Up 1,
        t2, 1, DisplayPhase.Active⟩] := by
  refine ⟨?_, ?_, ?_⟩
  · show ((DisplayState.new testConfig 0).process_key_event _).items = _
    simp [DisplayState.process_key_event, DisplayState.new, testConfig,
      DisplayState.handle_ime_toggle_key, DisplayState.handle_ime_fallback_key,
      should_suppress_during_ime_composition, DisplayState.match_shortcut,
      Modifiers.any, defaultModifiers, DisplayState.process_key_down_add,
      RepeatTracker.track, DisplayState.add_keystroke, DisplayState.add_item,
      trimFront, pruneTargets, pressInsert, PressKey.from_key_event,
      hmod, hvk, hscan, eqIgnoreAsciiCase]
  · show (((DisplayState.new testConfig 0).process_key_event _).process_key_event _).items = _
    simp [DisplayState.process_key_event, DisplayState.new, testConfig,
      DisplayState.handle_ime_toggle_key, DisplayState.handle_ime_fallback_key,
      should_suppress_during_ime_composition, DisplayState.match_shortcut,
      Modifiers.any, defaultModifiers, DisplayState.process_key_down_add,
      RepeatTracker.track, DisplayState.add_keystroke, DisplayState.add_item,
      trimFront, pruneTargets, pressInsert, pressErase, pressLookup,
      PressKey.from_key_event, DisplayState.apply_key_up_to_existing,
      modifyFirstWithId, upKeyUpdate, refresh_item, PressTarget.item,
      PressTarget.group, hmod, hvk, hscan, eqIgnoreAsciiCase]
  · show (((DisplayState.new cfgSplitNoGroup 0).process_key_event _).process_key_event _).items = _
    simp [DisplayState.process_key_event, DisplayState.new, cfgSplitNoGroup,
      testConfig, DisplayState.handle_ime_toggle_key,
      DisplayState.handle_ime_fallback_key,
      should_suppress_during_ime_composition, DisplayState.match_shortcut,
      Modifiers.any, defaultModifiers, DisplayState.process_key_down_add,
      RepeatTracker.track, DisplayState.add_keystroke, DisplayState.add_item,
      trimFront, pruneTargets, pressInsert, pressErase, pressLookup,
      PressKey.from_key_event, DisplayState.apply_key_up_to_existing,
      modifyFirstWithId, upKeyUpdate, refresh_item, PressTarget.item,
      PressTarget.group, hmod, hvk, hscan, eqIgnoreAsciiCase]

/-- Witness for the amended C7 at the key `A` (scan code 0x1E), Down at
0 ms and Up at 60 ms. -/
theorem C7_press_symmetry_witness :
    ((DisplayState.new testConfig 0).process_key_event
        ⟨⟨0x41⟩, KeyAction.Down, defaultModifiers, false, 0x1E, 0⟩).active_items =
      [⟨0, DisplayItemKind.KeyStroke (KeyCode.label ⟨0x41⟩) defaultModifiers
          KeyAction.Down 1, 0, 1, DisplayPhase.Active⟩] ∧
    (((DisplayState.new testConfig 0).process_key_event
        ⟨⟨0x41⟩, KeyAction.Down, defaultModifiers, false, 0x1E, 0⟩).process_key_event
        ⟨⟨0x41⟩, KeyAction.Up, defaultModifiers, false, 0x1E, 60⟩).active_items =
      [⟨0, DisplayItemKind.KeyStroke (KeyCode.label ⟨0x41⟩) defaultModifiers
          KeyAction.Up 1, 60, 1, DisplayPhase.Active⟩] ∧
    (((DisplayState.new cfgSplitNoGroup 0).process_key_event
        ⟨⟨0x41⟩, KeyAction.Down, defaultModifiers, false, 0x1E, 0⟩).process_key_event
        ⟨⟨0x41⟩, KeyAction.Up, defaultModifiers, false, 0x1E, 60⟩).active_items =
      [⟨0, DisplayItemKind.KeyStroke (KeyCode.label ⟨0x41⟩) defaultModifiers
          KeyAction.Down 1, 0, 1, DisplayPhase.Active⟩,
       ⟨1, DisplayItemKind.KeyStroke (KeyCode.label ⟨0x41⟩) defaultModifiers
          KeyAction.Up 1, 60, 1, DisplayPhase.Active⟩] :=
  C7_press_symmetry ⟨0x41⟩ false 0x1E 0 60 (by decide) (by decide) (by decide)
